import Mathlib

/-!
# Verification of the reconciliation view projector

Shallow embedding of the client-side reconciliation view-state projector of
this repository:

* `createGroupedData`, `getMatchForBankEntry`, `getMatchForGLEntry` from
  `packages/htn/packages/web/app/reconciliation/agent/page.tsx`;
* `transformAPIResult` from
  `packages/htn/packages/web/app/reconciliation/page.tsx` (duplicated
  verbatim in the unnamed page variant).

Modelling conventions:

* Rows (`Record<string, unknown>`) are modelled by `Recon.Row`: the projector
  only inspects the date field (`row.Date || row.date`), so a row carries an
  explicit `DateVal` (the combined observable of that expression) plus an
  opaque payload.  `DateVal.missing` covers a missing/empty (falsy) date
  field, for which the code takes the `new Date(0)` branch;
  `DateVal.parsed t` covers a truthy string that `new Date` parses to
  timestamp `t` (milliseconds, an integer, possibly negative for pre-1970
  dates); `DateVal.unparseable s` covers a truthy string that `new Date`
  fails to parse, for which `getTime()` is `NaN`.
* JavaScript `NaN` sort keys make the `sort` comparator inconsistent and the
  resulting order engine-defined; `sortKeyOfTime` assigns such rows the
  arbitrary key `0`, and every ordering theorem below carries a hypothesis
  excluding unparseable dates, so that the key function is faithful on the
  inputs the theorem speaks about.  Theorems that only count occurrences do
  not depend on the order produced by `sort`, hence need no such hypothesis.
* `Array.prototype.sort` is stable (ES2019); it is modelled by a stable
  insertion sort `sortByKey` (ascending by the integer comparator key).
* JavaScript numbers used as confidences are modelled by `ℚ`; match statuses
  are the literal strings compared by the code.
* Out-of-range array reads (`xs[i]` beyond the length, yielding `undefined`)
  are modelled by `List.getElem?`; `undefined`/`null` become `Option.none`.
-/

namespace Recon

/-- The observable of `row.Date || row.date` followed by `new Date(...)`. -/
inductive DateVal where
  | missing : DateVal
  | unparseable : String → DateVal
  | parsed : Int → DateVal
deriving DecidableEq, Repr, Inhabited

/-- A parsed CSV row: its date observable plus an opaque payload of the
remaining columns. -/
structure Row where
  dateVal : DateVal
  payload : List (String × String)
deriving DecidableEq, Repr, Inhabited

/-- `row.Date || row.date ? new Date(...) : new Date(0)` followed by
`.getTime()`: `none` stands for `NaN` (invalid date). -/
def jsDateMs (r : Row) : Option Int :=
  match r.dateVal with
  | .missing => some 0
  | .unparseable _ => none
  | .parsed t => some t

/-- Comparator key actually fed to `sort`.  `NaN` (`none`) is given the
arbitrary placeholder key `0`: the engine-defined placement of `NaN` keys is
outside every ordering theorem below (each assumes `rowParseable`). -/
def sortKeyOfTime : Option Int → Int
  | some t => t
  | none => 0

/-- `true` when the row's date observable is not an unparseable string, i.e.
when the JavaScript sort key is a real number, not `NaN`. -/
def rowParseable (r : Row) : Bool :=
  match r.dateVal with
  | .unparseable _ => false
  | _ => true

/-- One element of the session's `matches` array (`BankMatchData`). -/
structure BankMatch where
  bank_index : Nat
  gl_indexes : List Nat
  confidence : ℚ
  reasoning : String
  status : String
deriving DecidableEq, Repr

/-- The slice of `ReconciliationSession` read by the projector.  The source
field `matches` is renamed `matchList` (`matches` is reserved in Lean). -/
structure Session where
  bank_data : List Row
  gl_data : List Row
  matchList : List BankMatch
deriving DecidableEq, Repr

/-- `getMatchForBankEntry` from the agent page: all matches whose
`bank_index` equals `bankIndex`, preferring the first non-rejected one,
falling back to `allMatches[0]`. -/
def getMatchForBankEntry (ms : List BankMatch) (bankIndex : Nat) :
    Option BankMatch :=
  let allMatches := ms.filter (fun m => m.bank_index == bankIndex)
  match allMatches.find? (fun m => m.status != "rejected") with
  | some m => some m
  | none => allMatches.head?

/-- `getMatchForGLEntry` from the agent page: the first match whose
`gl_indexes` contains `glIndex`. -/
def getMatchForGLEntry (ms : List BankMatch) (glIndex : Nat) :
    Option BankMatch :=
  ms.find? (fun m => m.gl_indexes.contains glIndex)

/-- One element of a group's nested `glEntries` array; `data` is
`gl_data[glIndex]` (`none` when the index is out of range, where the code
stores `undefined`). -/
structure GlEntry where
  glIndex : Nat
  data : Option Row
  matchInfo : Option BankMatch
deriving DecidableEq, Repr

/-- A display group as produced by `createGroupedData` (bank-centric groups
and the formatted unmatched-GL entries share this record shape in the
source). -/
structure Group where
  bankEntry : Option Row
  bankIndex : Option Nat
  bankMatch : Option BankMatch
  glEntries : List GlEntry
  groupStyle : String
  isUnmatchedGl : Bool
  isRejected : Bool
  isUnmatchedBank : Bool
deriving DecidableEq, Repr

/-- The value returned by `createGroupedData`:
`[...activeGroups, { bankEntries, glEntries }]` in the source, i.e. the
active groups followed by the two side-by-side unmatched lists. -/
structure GroupedData where
  active : List Group
  unmatchedBank : List Group
  unmatchedGl : List Group
deriving DecidableEq, Repr

/-- Intermediate element of the `bankTransactions` array. -/
structure BankTransaction where
  bankEntry : Row
  bankIndex : Nat
  matchInfo : Option BankMatch
  time : Option Int
deriving DecidableEq, Repr

/-- The element of `bankTransactions` built for bank row `r` at index `i`. -/
def mkBT (s : Session) (i : Nat) (r : Row) : BankTransaction :=
  { bankEntry := r
    bankIndex := i
    matchInfo := getMatchForBankEntry s.matchList i
    time := jsDateMs r }

/-- The `bankTransactions` array: every bank row with its resolved match and
its sort date. -/
def bankTransactions (s : Session) : List BankTransaction :=
  s.bank_data.enum.map fun p => mkBT s p.1 p.2

/-- Stable insertion of `x` into `l`: `x` goes after every element whose key
is `≤ key x` (JavaScript's stable ascending sort keeps earlier elements
first on ties). -/
def insertByKey (key : α → Int) (x : α) : List α → List α
  | [] => [x]
  | y :: ys => if key y ≤ key x then y :: insertByKey key x ys else x :: y :: ys

/-- Stable ascending sort by an integer key, modelling
`arr.sort((a, b) => keyA - keyB)`. -/
def sortByKey (key : α → Int) (l : List α) : List α :=
  l.foldl (fun acc x => insertByKey key x acc) []

/-- Sort key of a `bankTransaction` (`a.date.getTime()`). -/
def btKey (bt : BankTransaction) : Int :=
  sortKeyOfTime bt.time

/-- Body of the `groups = bankTransactions.map(...)` callback: nested GL
entries are attached only when the resolved match is non-rejected with a
non-empty `glIndexes`, and the group style is derived from status and
confidence. -/
def mkGroup (s : Session) (bt : BankTransaction) : Group :=
  let glEntries : List GlEntry :=
    match bt.matchInfo with
    | some m =>
      if !m.gl_indexes.isEmpty && m.status != "rejected" then
        m.gl_indexes.map fun gi =>
          { glIndex := gi
            data := s.gl_data[gi]?
            matchInfo := getMatchForGLEntry s.matchList gi }
      else []
    | none => []
  let groupStyle : String :=
    match bt.matchInfo with
    | some m =>
      if !m.gl_indexes.isEmpty && m.status != "rejected" then
        if m.status == "approved" then "approved"
        else if (7 : ℚ)/10 ≤ m.confidence then "high-confidence"
        else "low-confidence"
      else "no-match"
    | none => "no-match"
  { bankEntry := some bt.bankEntry
    bankIndex := some bt.bankIndex
    bankMatch := bt.matchInfo
    glEntries := glEntries
    groupStyle := groupStyle
    isUnmatchedGl := false
    isRejected :=
      match bt.matchInfo with
      | some m => m.status == "rejected"
      | none => false
    isUnmatchedBank := false }

/-- The `match.gl_indexes.length > 0 && match.status !== "rejected"` guard
used when building the `matchedGlIndexes`/`matchedBankIndexes` sets. -/
def liveMatch (m : BankMatch) : Bool :=
  !m.gl_indexes.isEmpty && m.status != "rejected"

/-- The `matchedGlIndexes` set (as the list of contributions; membership
models `Set.has`). -/
def matchedGlIndexes (ms : List BankMatch) : List Nat :=
  (ms.filter liveMatch).flatMap (fun m => m.gl_indexes)

/-- The `matchedBankIndexes` set (as the list of contributions). -/
def matchedBankIndexes (ms : List BankMatch) : List Nat :=
  (ms.filter liveMatch).map (fun m => m.bank_index)

/-- Key used when re-sorting the unmatched bank entries
(`group.bankEntry?.Date || group.bankEntry?.date ? new Date(...) :
new Date(0)`). -/
def bankGroupKey (g : Group) : Int :=
  match g.bankEntry with
  | some r => sortKeyOfTime (jsDateMs r)
  | none => 0

/-- Key used when sorting the formatted unmatched GL entries (computed from
the GL row stored in the single nested entry). -/
def glGroupKey (g : Group) : Int :=
  match g.glEntries with
  | e :: _ =>
    match e.data with
    | some r => sortKeyOfTime (jsDateMs r)
    | none => 0
  | [] => 0

/-- The `sorted-then-mapped` `groups` array of `createGroupedData`. -/
def groupsOf (s : Session) : List Group :=
  (sortByKey btKey (bankTransactions s)).map (mkGroup s)

/-- The `activeGroups` filter predicate
(`!group.isRejected && group.glEntries.length > 0`). -/
def isActiveGroup (g : Group) : Bool :=
  !g.isRejected && g.glEntries.length > 0

/-- The `unmatchedBankGroups` filter predicate
(`!group.isRejected && group.glEntries.length === 0`). -/
def isUnmatchedBankGroup (g : Group) : Bool :=
  !g.isRejected && g.glEntries.length == 0

/-- The `!matchedBankIndexes.has(group.bankIndex)` filter.  In the source
every group reaching this filter has a numeric `bankIndex`; `Set.has` of
`undefined` would be `false`, so the `none` branch keeps the group. -/
def keepUnmatched (mbi : List Nat) (g : Group) : Bool :=
  match g.bankIndex with
  | some i => !mbi.contains i
  | none => true

/-- The `{ ...group, isUnmatchedBank: true, date }` spread (the added `date`
field is recomputed on demand by `bankGroupKey`). -/
def markUnmatchedBank (g : Group) : Group :=
  { g with isUnmatchedBank := true }

/-- The formatted unmatched-GL group built from `(glIndex, glEntry)`. -/
def fmtUnmatchedGl (p : Nat × Row) : Group :=
  { bankEntry := none
    bankIndex := none
    bankMatch := none
    glEntries := [{ glIndex := p.1, data := some p.2, matchInfo := none }]
    groupStyle := "no-match"
    isUnmatchedGl := true
    isRejected := false
    isUnmatchedBank := false }

/-- The `unmatchedBankEntries` array: rejected groups then unmatched bank
groups, keeping those whose bank index is not claimed by a live match,
marked `isUnmatchedBank`. -/
def unmatchedBankEntriesOf (s : Session) : List Group :=
  (((groupsOf s).filter (fun g => g.isRejected) ++
      (groupsOf s).filter isUnmatchedBankGroup).filter
    (keepUnmatched (matchedBankIndexes s.matchList))).map markUnmatchedBank

/-- The `unmatchedGlEntriesFormatted` array: GL rows not claimed by any live
match, as singleton groups. -/
def unmatchedGlFormattedOf (s : Session) : List Group :=
  (s.gl_data.enum.filter fun p =>
    !(matchedGlIndexes s.matchList).contains p.1).map fmtUnmatchedGl

/-- `createGroupedData` from the agent page.  The early `return []` (missing
session or an empty dataset on either side) becomes the empty projection. -/
def createGroupedData (s : Session) : GroupedData :=
  if s.bank_data.isEmpty || s.gl_data.isEmpty then ⟨[], [], []⟩
  else
    { active := (groupsOf s).filter isActiveGroup
      unmatchedBank := sortByKey bankGroupKey (unmatchedBankEntriesOf s)
      unmatchedGl := sortByKey glGroupKey (unmatchedGlFormattedOf s) }

/-- Bank indexes displayed by a single group. -/
def groupBankIndexes (g : Group) : List Nat :=
  match g.bankIndex with
  | some i => [i]
  | none => []

/-- GL indexes displayed by a single group (its nested entries). -/
def groupGlIndexes (g : Group) : List Nat :=
  g.glEntries.map fun e => e.glIndex

/-- All groups of a projection, in display order. -/
def outputGroups (o : GroupedData) : List Group :=
  o.active ++ o.unmatchedBank ++ o.unmatchedGl

/-- How many times bank index `i` appears across the whole projection. -/
def bankOccurrences (o : GroupedData) (i : Nat) : Nat :=
  ((outputGroups o).flatMap groupBankIndexes).count i

/-- How many times ledger index `j` appears across the whole projection. -/
def glOccurrences (o : GroupedData) (j : Nat) : Nat :=
  ((outputGroups o).flatMap groupGlIndexes).count j

/-- Index-based view of the `bankTransactions` element at bank index `i`. -/
def btOf (s : Session) (i : Nat) : BankTransaction :=
  mkBT s i (s.bank_data.getD i default)

/-- Index-based view of the group built for bank index `i`. -/
def grpOf (s : Session) (i : Nat) : Group :=
  mkGroup s (btOf s i)

/-- Well-formedness of a match list anticipated by the spec (§3): at most one
non-rejected match entry per bank index. -/
def UniqActive (ms : List BankMatch) : Prop :=
  ms.Pairwise fun a b =>
    ¬(a.status ≠ "rejected" ∧ b.status ≠ "rejected" ∧
      a.bank_index = b.bank_index)

/-- Every live (non-rejected, non-empty) match points at an existing bank
row. -/
def ActiveInRange (s : Session) : Prop :=
  ∀ m ∈ s.matchList, liveMatch m = true → m.bank_index < s.bank_data.length

/-- No GL index is claimed twice across the live matches (including twice
inside one `gl_indexes` list). -/
def NoSharedGl (ms : List BankMatch) : Prop :=
  (matchedGlIndexes ms).Nodup

/-- Every bank row's date field is absent/empty or parseable, i.e. no `NaN`
sort keys arise on the bank side. -/
def BankDatesParseable (s : Session) : Prop :=
  ∀ r ∈ s.bank_data, rowParseable r = true

instance (ms : List BankMatch) : Decidable (UniqActive ms) := by
  unfold UniqActive
  infer_instance

instance (s : Session) : Decidable (ActiveInRange s) := by
  unfold ActiveInRange
  infer_instance

instance (ms : List BankMatch) : Decidable (NoSharedGl ms) := by
  unfold NoSharedGl
  infer_instance

instance (s : Session) : Decidable (BankDatesParseable s) := by
  unfold BankDatesParseable
  infer_instance

/-! ### Concrete rows, match lists and sessions used to instantiate the
theorems below -/

/-- A row with no (or an empty) date field. -/
def rowMissing : Row := ⟨.missing, []⟩

/-- A row dated 1969-12-31T00:00:00Z (timestamp −86400000 ms). -/
def rowPreEpoch : Row := ⟨.parsed (-86400000), []⟩

/-- The spec scenario's bank row (2024-01-05, amount 100). -/
def rowJan5Bank : Row := ⟨.parsed 1704412800000, [("amount", "100")]⟩

/-- The spec scenario's ledger row (2024-01-05, debit 100). -/
def rowJan5Gl : Row := ⟨.parsed 1704412800000, [("debit", "100")]⟩

/-- The spec's positive scenario: one bank row, one GL row, one pending
match with confidence 0.95. -/
def sessionScenario : Session :=
  ⟨[rowJan5Bank], [rowJan5Gl],
    [⟨0, [0], 95/100, "date and amount line up", "pending"⟩]⟩

/-- Two match entries for bank index 0; the first non-rejected one has an
empty `gl_indexes`, shadowing the second. -/
def sessionShadowedMatch : Session :=
  ⟨[rowMissing], [rowMissing],
    [⟨0, [], 1/2, "first", "pending"⟩, ⟨0, [0], 1/2, "second", "pending"⟩]⟩

/-- Two live matches for different bank rows both claim GL index 0. -/
def sessionSharedGl : Session :=
  ⟨[rowMissing, rowMissing], [rowMissing],
    [⟨0, [0], 1/2, "a", "pending"⟩, ⟨1, [0], 1/2, "b", "pending"⟩]⟩

/-- A rejected match claims GL index 0, and a live match with an
out-of-range `bank_index` also claims it. -/
def sessionRejectedOrphan : Session :=
  ⟨[rowMissing], [rowMissing],
    [⟨0, [0], 1/2, "a", "rejected"⟩, ⟨5, [0], 1/2, "b", "pending"⟩]⟩

/-- One bank row with a rejected match claiming the only GL row. -/
def sessionRejectedOk : Session :=
  ⟨[rowMissing], [rowMissing], [⟨0, [0], 1/2, "x", "rejected"⟩]⟩

/-- A missing-date bank row next to a pre-epoch (1969) dated bank row, both
fully matched. -/
def sessionPreEpoch : Session :=
  ⟨[rowMissing, rowPreEpoch], [rowMissing, rowMissing],
    [⟨0, [0], 9/10, "a", "pending"⟩, ⟨1, [1], 9/10, "b", "pending"⟩]⟩

/-- A match referencing `gl_indexes = [5]` while `gl_data` has one row. -/
def sessionOutOfRange : Session :=
  ⟨[rowMissing], [rowMissing], [⟨0, [5], 9/10, "a", "pending"⟩]⟩

/-- An empty bank dataset next to a non-empty ledger dataset. -/
def sessionEmptyBank : Session := ⟨[], [rowMissing], []⟩

/-- Two entries for bank index 0: a rejected one first, then a pending one
(the pending one must win). -/
def msPreferList : List BankMatch :=
  [⟨0, [0], 1/2, "a", "rejected"⟩, ⟨0, [1], 1/2, "b", "pending"⟩]

/-- A single rejected entry for bank index 0. -/
def msAllRejList : List BankMatch :=
  [⟨0, [0], 1/2, "a", "rejected"⟩]

/-! ## The simple page variant: `transformAPIResult` -/

/-- One element of `bank_matches` in the simple page's API result. -/
structure APIMatch where
  bank_index : Nat
  gl_index : Option Nat
  confidence : ℚ
deriving DecidableEq, Repr

/-- One element of `matched_transactions`. -/
structure MatchedTransaction (α : Type) where
  bank_transaction : Option α
  gl_transaction : Option α
  confidence : ℚ
  bank_index : Nat
  gl_index : Option Nat
deriving DecidableEq, Repr

/-- The `summary` record. -/
structure Summary where
  total_matched : Nat
  total_unmatched_bank : Nat
  total_unmatched_gl : Nat
deriving DecidableEq, Repr

/-- `ReconciliationResult` of the simple page, generic in the row type. -/
structure ReconciliationResult (α : Type) where
  matched_transactions : List (MatchedTransaction α)
  unmatched_bank : List α
  unmatched_gl : List α
  summary : Summary
deriving DecidableEq, Repr

/-- `transformAPIResult` from the simple reconciliation page (identical in
the unnamed duplicate).  `bankData[i] || null` and
`glData[j] || null` are modelled by `getElem?` (rows are objects, hence
truthy whenever present). -/
def transformAPIResult (bank_matches : List APIMatch)
    (bankData glData : List α) : ReconciliationResult α :=
  let matched_transactions :=
    (bank_matches.filter fun m => m.gl_index.isSome).map fun m =>
      { bank_transaction := bankData[m.bank_index]?
        gl_transaction := m.gl_index.bind fun j => glData[j]?
        confidence := m.confidence
        bank_index := m.bank_index
        gl_index := m.gl_index : MatchedTransaction α }
  let matched_bank_indices := matched_transactions.map fun t => t.bank_index
  let matched_gl_indices :=
    (matched_transactions.map fun t => t.gl_index).filterMap id
  let unmatched_bank :=
    (bankData.enum.filter fun p => !matched_bank_indices.contains p.1).map
      fun p => p.2
  let unmatched_gl :=
    (glData.enum.filter fun p => !matched_gl_indices.contains p.1).map
      fun p => p.2
  { matched_transactions := matched_transactions
    unmatched_bank := unmatched_bank
    unmatched_gl := unmatched_gl
    summary :=
      { total_matched := matched_transactions.length
        total_unmatched_bank := unmatched_bank.length
        total_unmatched_gl := unmatched_gl.length } }

/-- Concrete API matches used to instantiate the `transformAPIResult`
theorem: one matched entry, one null-GL entry. -/
def bmW : List APIMatch := [⟨0, some 0, 1/2⟩, ⟨1, none, 1/2⟩]

/-- Concrete bank rows for the `transformAPIResult` instance. -/
def bankW : List Nat := [100, 200]

/-- Concrete GL rows for the `transformAPIResult` instance. -/
def glW : List Nat := [300]

/-! ## Generic list lemmas: the stable sort, enumeration, counting -/

section SortLemmas

variable {α : Type _} (key : α → Int)

theorem insertByKey_perm (x : α) (l : List α) :
    List.Perm (insertByKey key x l) (x :: l) := by
  induction l with
  | nil => exact List.Perm.refl _
  | cons y ys ih =>
    by_cases h : key y ≤ key x
    · simp only [insertByKey, if_pos h]
      exact (ih.cons y).trans (List.Perm.swap x y ys)
    · simp only [insertByKey, if_neg h]
      exact List.Perm.refl _

theorem sortByKey_perm (l : List α) : List.Perm (sortByKey key l) l := by
  have h : ∀ (l acc : List α),
      List.Perm (l.foldl (fun a x => insertByKey key x a) acc) (acc ++ l) := by
    intro l
    induction l with
    | nil => intro acc; simp
    | cons x xs ih =>
      intro acc
      simp only [List.foldl_cons]
      refine (ih (insertByKey key x acc)).trans ?_
      refine ((insertByKey_perm key x acc).append_right xs).trans ?_
      exact (@List.perm_middle _ x acc xs).symm
  simpa using h l []

theorem mem_sortByKey {x : α} {l : List α} :
    x ∈ sortByKey key l ↔ x ∈ l :=
  (sortByKey_perm key l).mem_iff

theorem insertByKey_sorted (x : α) (l : List α)
    (h : l.Pairwise fun a b => key a ≤ key b) :
    (insertByKey key x l).Pairwise fun a b => key a ≤ key b := by
  induction l with
  | nil => simp [insertByKey]
  | cons y ys ih =>
    rw [List.pairwise_cons] at h
    obtain ⟨hy, hys⟩ := h
    by_cases hk : key y ≤ key x
    · simp only [insertByKey, if_pos hk]
      rw [List.pairwise_cons]
      refine ⟨?_, ih hys⟩
      intro b hb
      rcases List.mem_cons.1 ((insertByKey_perm key x ys).mem_iff.1 hb) with hb | hb
      · exact hb ▸ hk
      · exact hy b hb
    · simp only [insertByKey, if_neg hk]
      rw [List.pairwise_cons]
      refine ⟨?_, List.pairwise_cons.2 ⟨hy, hys⟩⟩
      intro b hb
      rcases List.mem_cons.1 hb with hb | hb
      · exact hb ▸ le_of_lt (lt_of_not_le hk)
      · exact le_trans (le_of_lt (lt_of_not_le hk)) (hy b hb)

theorem sortByKey_sorted (l : List α) :
    (sortByKey key l).Pairwise fun a b => key a ≤ key b := by
  have h : ∀ (l acc : List α),
      (acc.Pairwise fun a b => key a ≤ key b) →
      ((l.foldl (fun a x => insertByKey key x a) acc).Pairwise
        fun a b => key a ≤ key b) := by
    intro l
    induction l with
    | nil => intro acc hacc; simpa using hacc
    | cons x xs ih =>
      intro acc hacc
      simp only [List.foldl_cons]
      exact ih _ (insertByKey_sorted key x acc hacc)
  exact h l [] (by simp)

/-- The stability relation: strictly earlier key, or equal keys and strictly
earlier original index. -/
def stableRel (key : α → Int) (idx : α → Nat) (a b : α) : Prop :=
  key a < key b ∨ (key a = key b ∧ idx a < idx b)

theorem insertByKey_stable (idx : α → Nat) (x : α) (l : List α)
    (h : l.Pairwise (stableRel key idx))
    (hx : ∀ a ∈ l, idx a < idx x) :
    (insertByKey key x l).Pairwise (stableRel key idx) := by
  induction l with
  | nil => simp [insertByKey]
  | cons y ys ih =>
    rw [List.pairwise_cons] at h
    obtain ⟨hy, hys⟩ := h
    by_cases hk : key y ≤ key x
    · simp only [insertByKey, if_pos hk]
      rw [List.pairwise_cons]
      refine ⟨?_, ih hys (fun a ha => hx a (List.mem_cons_of_mem y ha))⟩
      intro b hb
      rcases List.mem_cons.1 ((insertByKey_perm key x ys).mem_iff.1 hb) with hb | hb
      · subst hb
        rcases lt_or_eq_of_le hk with hlt | heq
        · exact Or.inl hlt
        · exact Or.inr ⟨heq, hx y (List.mem_cons_self y ys)⟩
      · exact hy b hb
    · simp only [insertByKey, if_neg hk]
      rw [List.pairwise_cons]
      refine ⟨?_, List.pairwise_cons.2 ⟨hy, hys⟩⟩
      intro b hb
      rcases List.mem_cons.1 hb with hb | hb
      · exact hb ▸ Or.inl (lt_of_not_le hk)
      · refine Or.inl (lt_of_lt_of_le (lt_of_not_le hk) ?_)
        rcases hy b hb with hlt | ⟨heq, _⟩
        · exact le_of_lt hlt
        · exact le_of_eq heq

theorem sortByKey_stable (idx : α → Nat) (l : List α)
    (h : l.Pairwise fun a b => idx a < idx b) :
    (sortByKey key l).Pairwise (stableRel key idx) := by
  have main : ∀ (l acc : List α),
      acc.Pairwise (stableRel key idx) →
      (l.Pairwise fun a b => idx a < idx b) →
      (∀ a ∈ acc, ∀ x ∈ l, idx a < idx x) →
      ((l.foldl (fun a x => insertByKey key x a) acc).Pairwise
        (stableRel key idx)) := by
    intro l
    induction l with
    | nil => intro acc hacc _ _; simpa using hacc
    | cons x xs ih =>
      intro acc hacc hl hcross
      rw [List.pairwise_cons] at hl
      obtain ⟨hxxs, hxs⟩ := hl
      simp only [List.foldl_cons]
      refine ih _ ?_ hxs ?_
      · exact insertByKey_stable key idx x acc hacc
          (fun a ha => hcross a ha x (List.mem_cons_self x xs))
      · intro a ha y hy
        rcases List.mem_cons.1 ((insertByKey_perm key x acc).mem_iff.1 ha) with ha | ha
        · exact ha ▸ hxxs y hy
        · exact hcross a ha y (List.mem_cons_of_mem x hy)
  exact main l [] (by simp) h (by simp)

end SortLemmas

section EnumLemmas

variable {α : Type _} [Inhabited α]

theorem enum_eq_range_map (l : List α) :
    l.enum = (List.range l.length).map fun i => (i, l.getD i default) := by
  apply List.ext_getElem
  · simp
  · intro i h1 h2
    simp only [List.getElem_enum, List.getElem_map, List.getElem_range]
    have hi : i < l.length := by simpa using h1
    rw [List.getD_eq_getElem l default hi]

end EnumLemmas

section CountLemmas

variable {β : Type _}

theorem count_flatMap_eq_zero {G : β → List Nat} {l : List β} {j : Nat}
    (h : ∀ a ∈ l, (G a).count j = 0) : (l.flatMap G).count j = 0 := by
  induction l with
  | nil => simp
  | cons x xs ih =>
    rw [List.flatMap_cons, List.count_append]
    rw [h x (List.mem_cons_self x xs), ih (fun a ha => h a (List.mem_cons_of_mem x ha))]

theorem count_flatMap_eq_one {G : β → List Nat} {l : List β} {j : Nat}
    (x : β) (hnd : l.Nodup) (hx : x ∈ l) (h1 : (G x).count j = 1)
    (h0 : ∀ y ∈ l, y ≠ x → (G y).count j = 0) :
    (l.flatMap G).count j = 1 := by
  induction l with
  | nil => cases hx
  | cons z zs ih =>
    rw [List.flatMap_cons, List.count_append]
    rw [List.nodup_cons] at hnd
    rcases List.mem_cons.1 hx with hzx | hxz
    · subst hzx
      rw [h1, count_flatMap_eq_zero (fun a ha => h0 a (List.mem_cons_of_mem x ha)
        (fun hax => hnd.1 (hax ▸ ha)))]
    · rw [h0 z (List.mem_cons_self z zs) (fun hzx => hnd.1 (hzx ▸ hxz)),
        ih hnd.2 hxz (fun y hy hyx => h0 y (List.mem_cons_of_mem z hy) hyx)]

theorem count_flatMap_le_one {G : β → List Nat} {l : List β} {j : Nat}
    (hnd : l.Nodup)
    (hle : ∀ y ∈ l, (G y).count j ≤ 1)
    (huniq : ∀ y ∈ l, ∀ z ∈ l, (G y).count j ≠ 0 → (G z).count j ≠ 0 → y = z) :
    (l.flatMap G).count j ≤ 1 := by
  induction l with
  | nil => simp
  | cons z zs ih =>
    rw [List.flatMap_cons, List.count_append]
    rw [List.nodup_cons] at hnd
    by_cases hz : (G z).count j = 0
    · rw [hz]
      simpa using ih hnd.2 (fun y hy => hle y (List.mem_cons_of_mem z hy))
        (fun y hy z' hz' => huniq y (List.mem_cons_of_mem z hy)
          z' (List.mem_cons_of_mem z hz'))
    · have hrest : (zs.flatMap G).count j = 0 := by
        apply count_flatMap_eq_zero
        intro y hy
        by_contra hne
        exact hnd.1 ((huniq y (List.mem_cons_of_mem z hy) z
          (List.mem_cons_self z zs) hne hz) ▸ hy)
      rw [hrest]
      simpa using hle z (List.mem_cons_self z zs)

theorem count_pos_of_mem_of_mem {G : β → List Nat} {l : List β} {j : Nat}
    {m : β} (hm : m ∈ l) (hj : j ∈ G m) : 0 < (l.flatMap G).count j := by
  rw [List.count_pos_iff]
  exact List.mem_flatMap.2 ⟨m, hm, hj⟩

theorem eq_of_count_flatMap_eq_one {G : β → List Nat} {l : List β} {j : Nat}
    (h : (l.flatMap G).count j = 1) :
    ∀ m ∈ l, ∀ m' ∈ l, j ∈ G m → j ∈ G m' → m = m' := by
  intro m hm m' hm' hjm hjm'
  by_contra hne
  obtain ⟨l1, l2, rfl⟩ := List.append_of_mem hm
  have hcount : (l1.flatMap G).count j + (G m).count j + (l2.flatMap G).count j = 1 := by
    have := h
    rw [List.flatMap_append, List.flatMap_cons, List.count_append,
      List.count_append] at this
    omega
  have hmem' : m' ∈ l1 ∨ m' ∈ l2 := by
    rcases List.mem_append.1 hm' with h1 | h2
    · exact Or.inl h1
    · rcases List.mem_cons.1 h2 with he | h2
      · exact absurd he.symm hne
      · exact Or.inr h2
  have hGm : 0 < (G m).count j := List.count_pos_iff.2 hjm
  rcases hmem' with h1 | h2
  · have := count_pos_of_mem_of_mem h1 hjm'
    omega
  · have := count_pos_of_mem_of_mem h2 hjm'
    omega

theorem count_eq_one_of_count_flatMap_eq_one {G : β → List Nat} {l : List β}
    {j : Nat} (h : (l.flatMap G).count j = 1) :
    ∀ m ∈ l, j ∈ G m → (G m).count j = 1 := by
  intro m hm hjm
  obtain ⟨l1, l2, rfl⟩ := List.append_of_mem hm
  have hcount : (l1.flatMap G).count j + (G m).count j + (l2.flatMap G).count j = 1 := by
    rw [List.flatMap_append, List.flatMap_cons, List.count_append,
      List.count_append] at h
    omega
  have hGm : 0 < (G m).count j := List.count_pos_iff.2 hjm
  omega

theorem count_flatMap_groupBankIndexes {l : List Recon.Group} {i : Nat} :
    (l.flatMap Recon.groupBankIndexes).count i =
      l.countP fun g => g.bankIndex == some i := by
  induction l with
  | nil => simp
  | cons g gs ih =>
    rw [List.flatMap_cons, List.count_append, ih, List.countP_cons]
    cases hgi : g.bankIndex with
    | none => simp [Recon.groupBankIndexes, hgi]
    | some k =>
      by_cases hk : k = i
      · subst hk
        simp only [Recon.groupBankIndexes, hgi, List.count_cons, List.count_nil,
          beq_self_eq_true, if_true]
        omega
      · simp [Recon.groupBankIndexes, hgi, List.count_cons, hk, Nat.add_comm]

theorem countP_range_beq (N i : Nat) (b : Nat → Bool) :
    (List.range N).countP (fun k => (k == i) && b k) =
      if i < N && b i then 1 else 0 := by
  induction N with
  | zero => simp
  | succ n ih =>
    rw [List.range_succ, List.countP_append, ih]
    by_cases hni : n = i
    · subst hni
      by_cases hb : b n
      · simp [hb, List.countP_cons, Nat.lt_succ_self]
      · simp [hb, List.countP_cons]
    · have : ((n == i) && b n) = false := by
        simp [hni]
      simp only [List.countP_cons, List.countP_nil, this]
      by_cases hi : i < n
      · simp [hi, Nat.lt_succ_of_lt hi]
      · have h1 : ¬ i < n + 1 := by omega
        simp [hi, h1]

end CountLemmas

/-! ## Structure lemmas about the projector -/

section StructureLemmas

@[simp] theorem mkBT_bankIndex (s : Session) (i : Nat) (r : Row) :
    (mkBT s i r).bankIndex = i := rfl

@[simp] theorem mkBT_bankEntry (s : Session) (i : Nat) (r : Row) :
    (mkBT s i r).bankEntry = r := rfl

@[simp] theorem mkBT_matchInfo (s : Session) (i : Nat) (r : Row) :
    (mkBT s i r).matchInfo = getMatchForBankEntry s.matchList i := rfl

@[simp] theorem mkBT_time (s : Session) (i : Nat) (r : Row) :
    (mkBT s i r).time = jsDateMs r := rfl

@[simp] theorem mkGroup_bankIndex (s : Session) (bt : BankTransaction) :
    (mkGroup s bt).bankIndex = some bt.bankIndex := rfl

@[simp] theorem mkGroup_bankEntry (s : Session) (bt : BankTransaction) :
    (mkGroup s bt).bankEntry = some bt.bankEntry := rfl

@[simp] theorem mkGroup_bankMatch (s : Session) (bt : BankTransaction) :
    (mkGroup s bt).bankMatch = bt.matchInfo := rfl

@[simp] theorem mkGroup_isUnmatchedGl (s : Session) (bt : BankTransaction) :
    (mkGroup s bt).isUnmatchedGl = false := rfl

theorem mkGroup_glEntries_none (s : Session) {bt : BankTransaction}
    (h : bt.matchInfo = none) : (mkGroup s bt).glEntries = [] := by
  simp [mkGroup, h]

theorem mkGroup_glEntries_some (s : Session) {bt : BankTransaction}
    {m : BankMatch} (h : bt.matchInfo = some m) :
    (mkGroup s bt).glEntries =
      if liveMatch m then
        m.gl_indexes.map fun gi =>
          { glIndex := gi
            data := s.gl_data[gi]?
            matchInfo := getMatchForGLEntry s.matchList gi }
      else [] := by
  simp [mkGroup, h, liveMatch]

theorem mkGroup_isRejected_none (s : Session) {bt : BankTransaction}
    (h : bt.matchInfo = none) : (mkGroup s bt).isRejected = false := by
  simp [mkGroup, h]

theorem mkGroup_isRejected_some (s : Session) {bt : BankTransaction}
    {m : BankMatch} (h : bt.matchInfo = some m) :
    (mkGroup s bt).isRejected = (m.status == "rejected") := by
  simp [mkGroup, h]

theorem mkGroup_groupStyle_some (s : Session) {bt : BankTransaction}
    {m : BankMatch} (h : bt.matchInfo = some m) :
    (mkGroup s bt).groupStyle =
      if liveMatch m then
        if m.status == "approved" then "approved"
        else if (7 : ℚ)/10 ≤ m.confidence then "high-confidence"
        else "low-confidence"
      else "no-match" := by
  simp [mkGroup, h, liveMatch]

theorem mkGroup_groupStyle_none (s : Session) {bt : BankTransaction}
    (h : bt.matchInfo = none) : (mkGroup s bt).groupStyle = "no-match" := by
  simp [mkGroup, h]

theorem liveMatch_status {m : BankMatch} (h : liveMatch m = true) :
    m.status ≠ "rejected" := by
  have := h
  simp only [liveMatch, Bool.and_eq_true, bne_iff_ne, ne_eq] at this
  exact this.2

theorem liveMatch_nonempty {m : BankMatch} (h : liveMatch m = true) :
    m.gl_indexes ≠ [] := by
  have := h
  simp only [liveMatch, Bool.and_eq_true] at this
  simpa using this.1

theorem liveMatch_of (m : BankMatch) (h1 : m.gl_indexes ≠ [])
    (h2 : m.status ≠ "rejected") : liveMatch m = true := by
  simp [liveMatch, h1, h2]

theorem isActiveGroup_mkGroup (s : Session) (bt : BankTransaction) :
    isActiveGroup (mkGroup s bt) = true ↔
      ∃ m, bt.matchInfo = some m ∧ liveMatch m = true := by
  constructor
  · intro h
    cases hm : bt.matchInfo with
    | none =>
      rw [isActiveGroup, mkGroup_glEntries_none s hm] at h
      simp at h
    | some m =>
      refine ⟨m, rfl, ?_⟩
      by_contra hlive
      rw [isActiveGroup, mkGroup_glEntries_some s hm,
        if_neg hlive] at h
      simp at h
  · rintro ⟨m, hm, hlive⟩
    rw [isActiveGroup, mkGroup_glEntries_some s hm, if_pos hlive,
      mkGroup_isRejected_some s hm]
    have hne : (m.status == "rejected") = false := by
      simpa using liveMatch_status hlive
    have hlen : 0 < m.gl_indexes.length :=
      List.length_pos.2 (liveMatch_nonempty hlive)
    simp [hne, hlen]

theorem groupGlIndexes_mkGroup_live (s : Session) {bt : BankTransaction}
    {m : BankMatch} (h : bt.matchInfo = some m) (hlive : liveMatch m = true) :
    groupGlIndexes (mkGroup s bt) = m.gl_indexes := by
  rw [groupGlIndexes, mkGroup_glEntries_some s h, if_pos hlive]
  induction m.gl_indexes with
  | nil => rfl
  | cons x xs ih => simpa using ih

theorem groupGlIndexes_mkGroup_eq_nil (s : Session) {bt : BankTransaction}
    (h : isActiveGroup (mkGroup s bt) = false) :
    (mkGroup s bt).glEntries = [] := by
  cases hm : bt.matchInfo with
  | none => exact mkGroup_glEntries_none s hm
  | some m =>
    rw [mkGroup_glEntries_some s hm]
    by_cases hlive : liveMatch m = true
    · exfalso
      rw [(isActiveGroup_mkGroup s bt).2 ⟨m, hm, hlive⟩] at h
      cases h
    · rw [if_neg hlive]

@[simp] theorem markUnmatchedBank_bankIndex (g : Group) :
    (markUnmatchedBank g).bankIndex = g.bankIndex := rfl

@[simp] theorem markUnmatchedBank_glEntries (g : Group) :
    (markUnmatchedBank g).glEntries = g.glEntries := rfl

@[simp] theorem markUnmatchedBank_groupStyle (g : Group) :
    (markUnmatchedBank g).groupStyle = g.groupStyle := rfl

@[simp] theorem markUnmatchedBank_bankMatch (g : Group) :
    (markUnmatchedBank g).bankMatch = g.bankMatch := rfl

@[simp] theorem markUnmatchedBank_bankEntry (g : Group) :
    (markUnmatchedBank g).bankEntry = g.bankEntry := rfl

@[simp] theorem fmtUnmatchedGl_bankIndex (p : Nat × Row) :
    (fmtUnmatchedGl p).bankIndex = none := rfl

@[simp] theorem fmtUnmatchedGl_bankMatch (p : Nat × Row) :
    (fmtUnmatchedGl p).bankMatch = none := rfl

@[simp] theorem fmtUnmatchedGl_glEntries (p : Nat × Row) :
    (fmtUnmatchedGl p).glEntries =
      [{ glIndex := p.1, data := some p.2, matchInfo := none }] := rfl

@[simp] theorem fmtUnmatchedGl_groupStyle (p : Nat × Row) :
    (fmtUnmatchedGl p).groupStyle = "no-match" := rfl

theorem bankTransactions_eq (s : Session) :
    bankTransactions s =
      (List.range s.bank_data.length).map (btOf s) := by
  rw [bankTransactions, enum_eq_range_map, List.map_map]
  rfl

theorem btOf_mem (s : Session) {i : Nat} (hi : i < s.bank_data.length) :
    btOf s i ∈ bankTransactions s := by
  rw [bankTransactions_eq]
  exact List.mem_map.2 ⟨i, List.mem_range.2 hi, rfl⟩

theorem mem_bankTransactions {s : Session} {bt : BankTransaction}
    (h : bt ∈ bankTransactions s) :
    ∃ i < s.bank_data.length, bt = btOf s i := by
  rw [bankTransactions_eq] at h
  obtain ⟨i, hi, rfl⟩ := List.mem_map.1 h
  exact ⟨i, List.mem_range.1 hi, rfl⟩

theorem grpOf_mem_groupsOf (s : Session) {i : Nat}
    (hi : i < s.bank_data.length) : grpOf s i ∈ groupsOf s := by
  rw [groupsOf]
  refine List.mem_map.2 ⟨btOf s i, ?_, rfl⟩
  exact (mem_sortByKey btKey).2 (btOf_mem s hi)

theorem mem_groupsOf {s : Session} {g : Group} (h : g ∈ groupsOf s) :
    ∃ i < s.bank_data.length, g = grpOf s i := by
  rw [groupsOf] at h
  obtain ⟨bt, hbt, rfl⟩ := List.mem_map.1 h
  obtain ⟨i, hi, rfl⟩ := mem_bankTransactions ((mem_sortByKey btKey).1 hbt)
  exact ⟨i, hi, rfl⟩

/-! ### Resolution lemmas for `getMatchForBankEntry` -/

theorem getMatchForBankEntry_mem {ms : List BankMatch} {i : Nat}
    {m : BankMatch} (h : getMatchForBankEntry ms i = some m) :
    m ∈ ms ∧ m.bank_index = i := by
  rw [getMatchForBankEntry] at h
  cases hf : (ms.filter fun m => m.bank_index == i).find?
      (fun m => m.status != "rejected") with
  | some m' =>
    rw [hf] at h
    cases h
    have hmem := List.mem_of_find?_eq_some hf
    rw [List.mem_filter] at hmem
    exact ⟨hmem.1, by simpa using hmem.2⟩
  | none =>
    rw [hf] at h
    have hmem : m ∈ ms.filter fun m => m.bank_index == i := by
      cases hl : ms.filter fun m => m.bank_index == i with
      | nil => rw [hl] at h; cases h
      | cons x xs =>
        rw [hl, List.head?_cons] at h
        have hx : x = m := Option.some.inj h
        subst hx
        exact List.mem_cons_self x xs
    rw [List.mem_filter] at hmem
    exact ⟨hmem.1, by simpa using hmem.2⟩

theorem getMatchForBankEntry_nonrejected {ms : List BankMatch} {i : Nat}
    {m' : BankMatch} (hmem : m' ∈ ms) (hidx : m'.bank_index = i)
    (hst : m'.status ≠ "rejected") :
    ∃ m, getMatchForBankEntry ms i = some m ∧ m.status ≠ "rejected" ∧
      m ∈ ms ∧ m.bank_index = i := by
  have hmf : m' ∈ ms.filter fun m => m.bank_index == i :=
    List.mem_filter.2 ⟨hmem, by simpa using hidx⟩
  have hsome : ((ms.filter fun m => m.bank_index == i).find?
      (fun m => m.status != "rejected")).isSome := by
    rw [List.find?_isSome]
    exact ⟨m', hmf, by simpa using hst⟩
  obtain ⟨m, hm⟩ := Option.isSome_iff_exists.1 hsome
  have hres : getMatchForBankEntry ms i = some m := by
    rw [getMatchForBankEntry, hm]
  have hpm : m.status ≠ "rejected" := by
    have := List.find?_some hm
    simpa using this
  obtain ⟨h1, h2⟩ := getMatchForBankEntry_mem hres
  exact ⟨m, hres, hpm, h1, h2⟩

theorem getMatchForBankEntry_unique {ms : List BankMatch} {i : Nat}
    {m' : BankMatch} (hu : UniqActive ms) (hmem : m' ∈ ms)
    (hidx : m'.bank_index = i) (hst : m'.status ≠ "rejected") :
    getMatchForBankEntry ms i = some m' := by
  obtain ⟨m, hres, hmst, hmmem, hmidx⟩ :=
    getMatchForBankEntry_nonrejected hmem hidx hst
  by_cases heq : m = m'
  · exact heq ▸ hres
  · exfalso
    have hsym : Symmetric fun a b : BankMatch =>
        ¬(a.status ≠ "rejected" ∧ b.status ≠ "rejected" ∧
          a.bank_index = b.bank_index) := by
      intro a b hab ⟨h1, h2, h3⟩
      exact hab ⟨h2, h1, h3.symm⟩
    exact (hu.forall hsym hmmem hmem heq) ⟨hmst, hst, hmidx.trans hidx.symm⟩

theorem mem_matchedBankIndexes {ms : List BankMatch} {i : Nat} :
    i ∈ matchedBankIndexes ms ↔
      ∃ m ∈ ms, liveMatch m = true ∧ m.bank_index = i := by
  rw [matchedBankIndexes]
  constructor
  · intro h
    obtain ⟨m, hm, hmi⟩ := List.mem_map.1 h
    rw [List.mem_filter] at hm
    exact ⟨m, hm.1, hm.2, hmi⟩
  · rintro ⟨m, hmem, hlive, hidx⟩
    exact List.mem_map.2 ⟨m, List.mem_filter.2 ⟨hmem, hlive⟩, hidx⟩

theorem mem_matchedGlIndexes {ms : List BankMatch} {j : Nat} :
    j ∈ matchedGlIndexes ms ↔
      ∃ m ∈ ms, liveMatch m = true ∧ j ∈ m.gl_indexes := by
  rw [matchedGlIndexes]
  constructor
  · intro h
    obtain ⟨m, hm, hj⟩ := List.mem_flatMap.1 h
    rw [List.mem_filter] at hm
    exact ⟨m, hm.1, hm.2, hj⟩
  · rintro ⟨m, hmem, hlive, hj⟩
    exact List.mem_flatMap.2 ⟨m, List.mem_filter.2 ⟨hmem, hlive⟩, hj⟩

theorem resolved_live_of_claimed {s : Session} (hu : UniqActive s.matchList)
    {i : Nat} (h : i ∈ matchedBankIndexes s.matchList) :
    ∃ m, getMatchForBankEntry s.matchList i = some m ∧ liveMatch m = true := by
  obtain ⟨m, hmem, hlive, hidx⟩ := mem_matchedBankIndexes.1 h
  exact ⟨m, getMatchForBankEntry_unique hu hmem hidx (liveMatch_status hlive),
    hlive⟩

end StructureLemmas

/-! ## Counting bridges: occurrences as counts over `List.range` -/

section CountingBridges

@[simp] theorem grpOf_bankIndex (s : Session) (k : Nat) :
    (grpOf s k).bankIndex = some k := rfl

@[simp] theorem some_beq_some_nat (a b : Nat) :
    ((some a == some b) : Bool) = (a == b) := rfl

@[simp] theorem none_beq_some_nat (b : Nat) :
    ((none == some b) : Bool) = false := rfl

theorem grpOf_matchInfo (s : Session) (k : Nat) :
    (btOf s k).matchInfo = getMatchForBankEntry s.matchList k := rfl

theorem createGroupedData_nonempty (s : Session) (hb : s.bank_data ≠ [])
    (hg : s.gl_data ≠ []) :
    createGroupedData s =
      { active := (groupsOf s).filter isActiveGroup
        unmatchedBank := sortByKey bankGroupKey (unmatchedBankEntriesOf s)
        unmatchedGl := sortByKey glGroupKey (unmatchedGlFormattedOf s) } := by
  rw [createGroupedData, if_neg]
  simp [hb, hg]

theorem countP_groupsOf (s : Session) (P : Group → Bool) :
    (groupsOf s).countP P =
      (List.range s.bank_data.length).countP fun k => P (grpOf s k) := by
  calc (groupsOf s).countP P
      = (sortByKey btKey (bankTransactions s)).countP
          (fun bt => P (mkGroup s bt)) := by
        rw [groupsOf, List.countP_map]; rfl
    _ = (bankTransactions s).countP (fun bt => P (mkGroup s bt)) :=
        (sortByKey_perm btKey _).countP_eq _
    _ = (List.range s.bank_data.length).countP fun k => P (grpOf s k) := by
        rw [bankTransactions_eq, List.countP_map]; rfl

/-- The group a rejected or unmatched bank transaction produces has no
nested GL entries. -/
theorem glEntries_eq_nil_of_inactive (s : Session) {bt : BankTransaction}
    (h : isActiveGroup (mkGroup s bt) = false) :
    (mkGroup s bt).glEntries = [] :=
  groupGlIndexes_mkGroup_eq_nil s h

theorem isRejected_not_active (s : Session) (bt : BankTransaction)
    (h : (mkGroup s bt).isRejected = true) :
    isActiveGroup (mkGroup s bt) = false := by
  rw [isActiveGroup, h]
  rfl

theorem isUnmatchedBankGroup_not_active (g : Group)
    (h : isUnmatchedBankGroup g = true) : isActiveGroup g = false := by
  rw [isUnmatchedBankGroup, Bool.and_eq_true] at h
  rw [isActiveGroup]
  have : g.glEntries.length = 0 := by simpa using h.2
  simp [this]

/-- Members of the unmatched-bank list have no nested GL entries. -/
theorem unmatchedBankEntriesOf_glEntries {s : Session} {g : Group}
    (h : g ∈ unmatchedBankEntriesOf s) : g.glEntries = [] := by
  rw [unmatchedBankEntriesOf] at h
  obtain ⟨g', hg', rfl⟩ := List.mem_map.1 h
  rw [List.mem_filter] at hg'
  rcases List.mem_append.1 hg'.1 with hh | hh
  · rw [List.mem_filter] at hh
    obtain ⟨k, _, rfl⟩ := mem_groupsOf hh.1
    rw [markUnmatchedBank_glEntries]
    exact glEntries_eq_nil_of_inactive s (isRejected_not_active s _ hh.2)
  · rw [List.mem_filter] at hh
    obtain ⟨k, _, rfl⟩ := mem_groupsOf hh.1
    rw [markUnmatchedBank_glEntries]
    exact glEntries_eq_nil_of_inactive s
      (isUnmatchedBankGroup_not_active _ hh.2)

theorem bankOccurrences_decomp (s : Session) (hb : s.bank_data ≠ [])
    (hg : s.gl_data ≠ []) (i : Nat) :
    bankOccurrences (createGroupedData s) i =
      ((List.range s.bank_data.length).countP fun k =>
        (k == i) && isActiveGroup (grpOf s k)) +
      ((List.range s.bank_data.length).countP fun k =>
        (k == i) && ((grpOf s k).isRejected &&
          keepUnmatched (matchedBankIndexes s.matchList) (grpOf s k))) +
      ((List.range s.bank_data.length).countP fun k =>
        (k == i) && (isUnmatchedBankGroup (grpOf s k) &&
          keepUnmatched (matchedBankIndexes s.matchList) (grpOf s k))) := by
  rw [bankOccurrences, createGroupedData_nonempty s hb hg, outputGroups]
  simp only [List.flatMap_append, List.count_append]
  have h1 : (((groupsOf s).filter isActiveGroup).flatMap
      groupBankIndexes).count i =
      (List.range s.bank_data.length).countP fun k =>
        (k == i) && isActiveGroup (grpOf s k) := by
    rw [count_flatMap_groupBankIndexes, List.countP_filter, countP_groupsOf]
    apply List.countP_congr
    intro k _
    simp
  have h3 : ((sortByKey glGroupKey (unmatchedGlFormattedOf s)).flatMap
      groupBankIndexes).count i = 0 := by
    rw [count_flatMap_groupBankIndexes,
      (sortByKey_perm glGroupKey _).countP_eq, unmatchedGlFormattedOf,
      List.countP_map]
    simp [Function.comp]
  have h2 : ((sortByKey bankGroupKey (unmatchedBankEntriesOf s)).flatMap
      groupBankIndexes).count i =
      ((List.range s.bank_data.length).countP fun k =>
        (k == i) && ((grpOf s k).isRejected &&
          keepUnmatched (matchedBankIndexes s.matchList) (grpOf s k))) +
      ((List.range s.bank_data.length).countP fun k =>
        (k == i) && (isUnmatchedBankGroup (grpOf s k) &&
          keepUnmatched (matchedBankIndexes s.matchList) (grpOf s k))) := by
    rw [count_flatMap_groupBankIndexes,
      (sortByKey_perm bankGroupKey _).countP_eq, unmatchedBankEntriesOf,
      List.countP_map]
    calc ((List.filter (keepUnmatched (matchedBankIndexes s.matchList))
          ((groupsOf s).filter (fun g => g.isRejected) ++
            (groupsOf s).filter isUnmatchedBankGroup)).countP
          ((fun g => g.bankIndex == some i) ∘ markUnmatchedBank))
        = ((List.filter (keepUnmatched (matchedBankIndexes s.matchList))
          ((groupsOf s).filter (fun g => g.isRejected) ++
            (groupsOf s).filter isUnmatchedBankGroup)).countP
          fun g => g.bankIndex == some i) := by
          apply List.countP_congr
          intro g _
          simp [Function.comp]
      _ = (((groupsOf s).filter (fun g => g.isRejected) ++
            (groupsOf s).filter isUnmatchedBankGroup).countP
          fun g => (g.bankIndex == some i) &&
            keepUnmatched (matchedBankIndexes s.matchList) g) := by
          rw [List.countP_filter]
      _ = (((groupsOf s).filter (fun g => g.isRejected)).countP
            fun g => (g.bankIndex == some i) &&
              keepUnmatched (matchedBankIndexes s.matchList) g) +
          (((groupsOf s).filter isUnmatchedBankGroup).countP
            fun g => (g.bankIndex == some i) &&
              keepUnmatched (matchedBankIndexes s.matchList) g) := by
          rw [List.countP_append]
      _ = ((groupsOf s).countP fun g =>
            ((g.bankIndex == some i) &&
              keepUnmatched (matchedBankIndexes s.matchList) g) &&
            g.isRejected) +
          ((groupsOf s).countP fun g =>
            ((g.bankIndex == some i) &&
              keepUnmatched (matchedBankIndexes s.matchList) g) &&
            isUnmatchedBankGroup g) := by
          rw [List.countP_filter, List.countP_filter]
      _ = ((List.range s.bank_data.length).countP fun k =>
            (k == i) && ((grpOf s k).isRejected &&
              keepUnmatched (matchedBankIndexes s.matchList) (grpOf s k))) +
          ((List.range s.bank_data.length).countP fun k =>
            (k == i) && (isUnmatchedBankGroup (grpOf s k) &&
              keepUnmatched (matchedBankIndexes s.matchList) (grpOf s k))) := by
          rw [countP_groupsOf, countP_groupsOf]
          congr 1
          · apply List.countP_congr
            intro k _
            simp only [grpOf_bankIndex, some_beq_some_nat, Bool.and_eq_true]
            tauto
          · apply List.countP_congr
            intro k _
            simp only [grpOf_bankIndex, some_beq_some_nat, Bool.and_eq_true]
            tauto
  rw [h1, h2, h3]
  omega

theorem count_flatMap_singleton_fst {l : List (Nat × Row)} {j : Nat} :
    (l.flatMap fun p => [p.1]).count j = l.countP fun p => p.1 == j := by
  induction l with
  | nil => simp
  | cons p ps ih =>
    rw [List.flatMap_cons, List.count_append, ih, List.countP_cons]
    by_cases h : p.1 = j
    · subst h
      simp [List.count_cons]
      omega
    · simp [List.count_cons, h]

theorem glOccurrences_decomp (s : Session) (hb : s.bank_data ≠ [])
    (hg : s.gl_data ≠ []) (j : Nat) :
    glOccurrences (createGroupedData s) j =
      (((List.range s.bank_data.length).filter fun k =>
          isActiveGroup (grpOf s k)).flatMap
        fun k => groupGlIndexes (grpOf s k)).count j +
      (if j < s.gl_data.length &&
          !(matchedGlIndexes s.matchList).contains j then 1 else 0) := by
  rw [glOccurrences, createGroupedData_nonempty s hb hg, outputGroups]
  simp only [List.flatMap_append, List.count_append]
  have h2 : ((sortByKey bankGroupKey (unmatchedBankEntriesOf s)).flatMap
      groupGlIndexes).count j = 0 := by
    rw [List.count_eq_zero]
    intro hmem
    obtain ⟨g, hgmem, hj⟩ := List.mem_flatMap.1 hmem
    have hnil := unmatchedBankEntriesOf_glEntries
      ((mem_sortByKey bankGroupKey).1 hgmem)
    rw [groupGlIndexes, hnil] at hj
    cases hj
  have h1 : (((groupsOf s).filter isActiveGroup).flatMap
      groupGlIndexes).count j =
      (((List.range s.bank_data.length).filter fun k =>
          isActiveGroup (grpOf s k)).flatMap
        fun k => groupGlIndexes (grpOf s k)).count j := by
    rw [groupsOf, List.filter_map, List.flatMap_map]
    have hperm : List.Perm
        ((List.filter (isActiveGroup ∘ mkGroup s)
          (sortByKey btKey (bankTransactions s))).flatMap
            fun a => groupGlIndexes (mkGroup s a))
        ((List.filter (isActiveGroup ∘ mkGroup s)
          (bankTransactions s)).flatMap
            fun a => groupGlIndexes (mkGroup s a)) :=
      List.Perm.flatMap_right _
        (List.Perm.filter _ (sortByKey_perm btKey _))
    rw [hperm.count_eq]
    rw [bankTransactions_eq, List.filter_map, List.flatMap_map]
    rfl
  have h3 : ((sortByKey glGroupKey (unmatchedGlFormattedOf s)).flatMap
      groupGlIndexes).count j =
      (if j < s.gl_data.length &&
          !(matchedGlIndexes s.matchList).contains j then 1 else 0) := by
    have hperm : List.Perm
        ((sortByKey glGroupKey (unmatchedGlFormattedOf s)).flatMap
          groupGlIndexes)
        ((unmatchedGlFormattedOf s).flatMap groupGlIndexes) :=
      List.Perm.flatMap_right _ (sortByKey_perm glGroupKey _)
    rw [hperm.count_eq]
    rw [unmatchedGlFormattedOf, List.flatMap_map]
    have hfmt : (fun p => groupGlIndexes (fmtUnmatchedGl p)) =
        fun p : Nat × Row => [p.1] := by
      funext p
      rfl
    rw [hfmt, count_flatMap_singleton_fst, List.countP_filter,
      enum_eq_range_map, List.countP_map]
    exact countP_range_beq s.gl_data.length j
      fun k => !(matchedGlIndexes s.matchList).contains k
  rw [h1, h2, h3]
  omega

/-! ## Per-index bucket analysis -/

theorem contains_eq_true_iff_mem {l : List Nat} {j : Nat} :
    l.contains j = true ↔ j ∈ l := by
  simp [List.contains]

theorem keepUnmatched_grpOf (s : Session) (i : Nat) :
    keepUnmatched (matchedBankIndexes s.matchList) (grpOf s i) =
      !(matchedBankIndexes s.matchList).contains i := by
  rw [keepUnmatched, grpOf_bankIndex]

theorem groupGlIndexes_grpOf_live (s : Session) {k : Nat} {m : BankMatch}
    (h : getMatchForBankEntry s.matchList k = some m)
    (hlive : liveMatch m = true) :
    groupGlIndexes (grpOf s k) = m.gl_indexes :=
  @groupGlIndexes_mkGroup_live s (btOf s k) m h hlive

/-- Under a well-formed match list, the group built for each bank index
falls into exactly one of the three output buckets: active, rejected-kept,
or unmatched-kept. -/
theorem bank_bucket_sum (s : Session) (hu : UniqActive s.matchList)
    (i : Nat) :
    (if isActiveGroup (grpOf s i) then 1 else 0) +
    (if (grpOf s i).isRejected &&
        keepUnmatched (matchedBankIndexes s.matchList) (grpOf s i)
      then 1 else 0) +
    (if isUnmatchedBankGroup (grpOf s i) &&
        keepUnmatched (matchedBankIndexes s.matchList) (grpOf s i)
      then 1 else 0) = 1 := by
  by_cases hA : isActiveGroup (grpOf s i) = true
  · obtain ⟨m, hm, hlive⟩ := (isActiveGroup_mkGroup s (btOf s i)).1 hA
    have hrej : (grpOf s i).isRejected = false := by
      rw [grpOf, mkGroup_isRejected_some s hm]
      simpa using liveMatch_status hlive
    have hunm : isUnmatchedBankGroup (grpOf s i) = false := by
      rw [isUnmatchedBankGroup, hrej]
      rw [grpOf, mkGroup_glEntries_some s hm, if_pos hlive]
      have : m.gl_indexes.length ≠ 0 := by
        simpa [List.length_eq_zero] using liveMatch_nonempty hlive
      simp [this]
    simp [hA, hrej, hunm]
  · have hkeep : keepUnmatched (matchedBankIndexes s.matchList)
        (grpOf s i) = true := by
      rw [keepUnmatched_grpOf]
      cases hc : (matchedBankIndexes s.matchList).contains i with
      | false => rfl
      | true =>
        exfalso
        obtain ⟨m, hm, hlive⟩ := resolved_live_of_claimed hu
          (contains_eq_true_iff_mem.1 hc)
        exact hA ((isActiveGroup_mkGroup s (btOf s i)).2 ⟨m, hm, hlive⟩)
    cases hR : (grpOf s i).isRejected with
    | true =>
      have hunm : isUnmatchedBankGroup (grpOf s i) = false := by
        rw [isUnmatchedBankGroup, hR]
        rfl
      simp [hA, hR, hkeep, hunm]
    | false =>
      have hlen : (grpOf s i).glEntries.length = 0 := by
        rw [isActiveGroup, hR] at hA
        simpa using hA
      have hunm : isUnmatchedBankGroup (grpOf s i) = true := by
        rw [isUnmatchedBankGroup, hR, hlen]
        rfl
      simp [hA, hR, hkeep, hunm]

/-- Bank-side coverage under a well-formed match list. -/
theorem bankOccurrences_eq_one (s : Session) (hb : s.bank_data ≠ [])
    (hg : s.gl_data ≠ []) (hu : UniqActive s.matchList) {i : Nat}
    (hi : i < s.bank_data.length) :
    bankOccurrences (createGroupedData s) i = 1 := by
  rw [bankOccurrences_decomp s hb hg i,
    countP_range_beq s.bank_data.length i
      (fun k => isActiveGroup (grpOf s k)),
    countP_range_beq s.bank_data.length i
      (fun k => (grpOf s k).isRejected &&
        keepUnmatched (matchedBankIndexes s.matchList) (grpOf s k)),
    countP_range_beq s.bank_data.length i
      (fun k => isUnmatchedBankGroup (grpOf s k) &&
        keepUnmatched (matchedBankIndexes s.matchList) (grpOf s k))]
  have hsum := bank_bucket_sum s hu i
  simp only [hi, decide_True, Bool.true_and]
  exact hsum

/-- Bank-side no-duplication, with no hypotheses at all. -/
theorem bankOccurrences_le_one (s : Session) (i : Nat) :
    bankOccurrences (createGroupedData s) i ≤ 1 := by
  by_cases hbe : s.bank_data.isEmpty || s.gl_data.isEmpty
  · rw [createGroupedData, if_pos hbe]
    simp [bankOccurrences, outputGroups]
  · simp only [Bool.or_eq_true, not_or, List.isEmpty_iff] at hbe
    have hb : s.bank_data ≠ [] := hbe.1
    have hg : s.gl_data ≠ [] := hbe.2
    rw [bankOccurrences_decomp s hb hg i,
      countP_range_beq s.bank_data.length i
        (fun k => isActiveGroup (grpOf s k)),
      countP_range_beq s.bank_data.length i
        (fun k => (grpOf s k).isRejected &&
          keepUnmatched (matchedBankIndexes s.matchList) (grpOf s k)),
      countP_range_beq s.bank_data.length i
        (fun k => isUnmatchedBankGroup (grpOf s k) &&
          keepUnmatched (matchedBankIndexes s.matchList) (grpOf s k))]
    by_cases hi : i < s.bank_data.length
    · simp only [hi, decide_True, Bool.true_and]
      by_cases hA : isActiveGroup (grpOf s i) = true
      · have hrej : (grpOf s i).isRejected = false := by
          rw [isActiveGroup, Bool.and_eq_true] at hA
          simpa using hA.1
        have hunm : isUnmatchedBankGroup (grpOf s i) = false := by
          rw [isActiveGroup, Bool.and_eq_true] at hA
          rw [isUnmatchedBankGroup, hrej]
          have : (grpOf s i).glEntries.length ≠ 0 := by
            have := hA.2
            simp only [decide_eq_true_eq] at this
            omega
          simp [this]
        simp [hA, hrej, hunm]
      · cases hR : (grpOf s i).isRejected with
        | true =>
          have hunm : isUnmatchedBankGroup (grpOf s i) = false := by
            rw [isUnmatchedBankGroup, hR]
            rfl
          cases hk : keepUnmatched (matchedBankIndexes s.matchList)
              (grpOf s i) with
          | true => simp [hA, hR, hunm, hk]
          | false => simp [hA, hR, hunm, hk]
        | false =>
          cases hk : keepUnmatched (matchedBankIndexes s.matchList)
              (grpOf s i) with
          | true =>
            cases hU : isUnmatchedBankGroup (grpOf s i) with
            | true => simp [hA, hR, hk, hU]
            | false => simp [hA, hR, hk, hU]
          | false => simp [hA, hR, hk]
    · simp [hi]

/-- The count of `j` inside matchedGlIndexes, as a flatMap over the live
matches. -/
theorem matchedGlIndexes_as_flatMap (ms : List BankMatch) :
    matchedGlIndexes ms =
      (ms.filter liveMatch).flatMap fun m => m.gl_indexes := rfl

/-- GL-side coverage under a well-formed match list. -/
theorem glOccurrences_eq_one (s : Session) (hb : s.bank_data ≠ [])
    (hg : s.gl_data ≠ []) (hu : UniqActive s.matchList)
    (hr : ActiveInRange s) (hn : NoSharedGl s.matchList) {j : Nat}
    (hj : j < s.gl_data.length) :
    glOccurrences (createGroupedData s) j = 1 := by
  rw [glOccurrences_decomp s hb hg j]
  by_cases hmem : j ∈ matchedGlIndexes s.matchList
  · have hcont : (matchedGlIndexes s.matchList).contains j = true :=
      contains_eq_true_iff_mem.2 hmem
    obtain ⟨mh, hmhmem, hmhlive, hjmh⟩ := mem_matchedGlIndexes.1 hmem
    have hres : getMatchForBankEntry s.matchList mh.bank_index = some mh :=
      getMatchForBankEntry_unique hu hmhmem rfl (liveMatch_status hmhlive)
    have hiN : mh.bank_index < s.bank_data.length := hr mh hmhmem hmhlive
    have hact : isActiveGroup (grpOf s mh.bank_index) = true :=
      (isActiveGroup_mkGroup s (btOf s mh.bank_index)).2 ⟨mh, hres, hmhlive⟩
    have hGidx : groupGlIndexes (grpOf s mh.bank_index) = mh.gl_indexes :=
      groupGlIndexes_mkGroup_live s hres hmhlive
    have h1 : (matchedGlIndexes s.matchList).count j = 1 :=
      List.count_eq_one_of_mem hn hmem
    have h1f : ((s.matchList.filter liveMatch).flatMap
        (fun m => m.gl_indexes)).count j = 1 := by
      rw [← matchedGlIndexes_as_flatMap]
      exact h1
    have hcnt1 : mh.gl_indexes.count j = 1 :=
      count_eq_one_of_count_flatMap_eq_one h1f mh
        (List.mem_filter.2 ⟨hmhmem, hmhlive⟩) hjmh
    have hactive : ((((List.range s.bank_data.length).filter fun k =>
        isActiveGroup (grpOf s k)).flatMap
          fun k => groupGlIndexes (grpOf s k)).count j) = 1 := by
      apply count_flatMap_eq_one mh.bank_index
      · exact List.Nodup.filter _ (List.nodup_range _)
      · exact List.mem_filter.2 ⟨List.mem_range.2 hiN, hact⟩
      · rw [hGidx]
        exact hcnt1
      · intro k hk hki
        rw [List.mem_filter] at hk
        obtain ⟨mk, hmk, hmklive⟩ :=
          (isActiveGroup_mkGroup s (btOf s k)).1 hk.2
        rw [groupGlIndexes_grpOf_live s hmk hmklive, List.count_eq_zero]
        intro hjmk
        obtain ⟨hmkmem, hmkidx⟩ := getMatchForBankEntry_mem hmk
        have heq := eq_of_count_flatMap_eq_one h1f mk
          (List.mem_filter.2 ⟨hmkmem, hmklive⟩) mh
          (List.mem_filter.2 ⟨hmhmem, hmhlive⟩) hjmk hjmh
        exact hki (by rw [← hmkidx, heq])
    rw [hactive, hcont]
    simp
  · have hcont : (matchedGlIndexes s.matchList).contains j = false := by
      cases hc : (matchedGlIndexes s.matchList).contains j with
      | false => rfl
      | true => exact absurd (contains_eq_true_iff_mem.1 hc) hmem
    have hactive : ((((List.range s.bank_data.length).filter fun k =>
        isActiveGroup (grpOf s k)).flatMap
          fun k => groupGlIndexes (grpOf s k)).count j) = 0 := by
      apply count_flatMap_eq_zero
      intro k hk
      rw [List.mem_filter] at hk
      obtain ⟨mk, hmk, hmklive⟩ :=
        (isActiveGroup_mkGroup s (btOf s k)).1 hk.2
      rw [groupGlIndexes_grpOf_live s hmk hmklive, List.count_eq_zero]
      intro hjmk
      obtain ⟨hmkmem, _⟩ := getMatchForBankEntry_mem hmk
      exact hmem (mem_matchedGlIndexes.2 ⟨mk, hmkmem, hmklive, hjmk⟩)
    rw [hactive, hcont]
    simp [hj]

/-- GL-side no-duplication, assuming only that no GL index is claimed twice
by live matches. -/
theorem glOccurrences_le_one (s : Session) (hn : NoSharedGl s.matchList)
    (j : Nat) : glOccurrences (createGroupedData s) j ≤ 1 := by
  by_cases hbe : s.bank_data.isEmpty || s.gl_data.isEmpty
  · rw [createGroupedData, if_pos hbe]
    simp [glOccurrences, outputGroups]
  · simp only [Bool.or_eq_true, not_or, List.isEmpty_iff] at hbe
    have hb : s.bank_data ≠ [] := hbe.1
    have hg : s.gl_data ≠ [] := hbe.2
    rw [glOccurrences_decomp s hb hg j]
    by_cases hmem : j ∈ matchedGlIndexes s.matchList
    · have hcont : (matchedGlIndexes s.matchList).contains j = true :=
        contains_eq_true_iff_mem.2 hmem
      have h1 : (matchedGlIndexes s.matchList).count j = 1 :=
        List.count_eq_one_of_mem hn hmem
      have h1f : ((s.matchList.filter liveMatch).flatMap
          (fun m => m.gl_indexes)).count j = 1 := by
        rw [← matchedGlIndexes_as_flatMap]
        exact h1
      have hactive : ((((List.range s.bank_data.length).filter fun k =>
          isActiveGroup (grpOf s k)).flatMap
            fun k => groupGlIndexes (grpOf s k)).count j) ≤ 1 := by
        apply count_flatMap_le_one (List.Nodup.filter _ (List.nodup_range _))
        · intro k hk
          rw [List.mem_filter] at hk
          obtain ⟨mk, hmk, hmklive⟩ :=
            (isActiveGroup_mkGroup s (btOf s k)).1 hk.2
          rw [groupGlIndexes_grpOf_live s hmk hmklive]
          by_cases hjmk : j ∈ mk.gl_indexes
          · obtain ⟨hmkmem, _⟩ := getMatchForBankEntry_mem hmk
            rw [count_eq_one_of_count_flatMap_eq_one h1f mk
              (List.mem_filter.2 ⟨hmkmem, hmklive⟩) hjmk]
          · rw [List.count_eq_zero.2 hjmk]
            omega
        · intro k hk k' hk' hkne hkne'
          rw [List.mem_filter] at hk hk'
          obtain ⟨mk, hmk, hmklive⟩ :=
            (isActiveGroup_mkGroup s (btOf s k)).1 hk.2
          obtain ⟨mk', hmk', hmklive'⟩ :=
            (isActiveGroup_mkGroup s (btOf s k')).1 hk'.2
          rw [groupGlIndexes_grpOf_live s hmk hmklive] at hkne
          rw [groupGlIndexes_grpOf_live s hmk' hmklive'] at hkne'
          have hjmk : j ∈ mk.gl_indexes := by
            by_contra hc
            exact hkne (List.count_eq_zero.2 hc)
          have hjmk' : j ∈ mk'.gl_indexes := by
            by_contra hc
            exact hkne' (List.count_eq_zero.2 hc)
          obtain ⟨hmkmem, hmkidx⟩ := getMatchForBankEntry_mem hmk
          obtain ⟨hmkmem', hmkidx'⟩ := getMatchForBankEntry_mem hmk'
          have heq := eq_of_count_flatMap_eq_one h1f mk
            (List.mem_filter.2 ⟨hmkmem, hmklive⟩) mk'
            (List.mem_filter.2 ⟨hmkmem', hmklive'⟩) hjmk hjmk'
          rw [← hmkidx, ← hmkidx', heq]
      rw [hcont]
      simpa using hactive
    · have hactive : ((((List.range s.bank_data.length).filter fun k =>
          isActiveGroup (grpOf s k)).flatMap
            fun k => groupGlIndexes (grpOf s k)).count j) = 0 := by
        apply count_flatMap_eq_zero
        intro k hk
        rw [List.mem_filter] at hk
        obtain ⟨mk, hmk, hmklive⟩ :=
          (isActiveGroup_mkGroup s (btOf s k)).1 hk.2
        rw [groupGlIndexes_grpOf_live s hmk hmklive, List.count_eq_zero]
        intro hjmk
        obtain ⟨hmkmem, _⟩ := getMatchForBankEntry_mem hmk
        exact hmem (mem_matchedGlIndexes.2 ⟨mk, hmkmem, hmklive, hjmk⟩)
      rw [hactive]
      split <;> omega

end CountingBridges

/-! ## Shape of the output groups -/

section OutputShape

theorem mem_unmatchedGlFormattedOf {s : Session} {g : Group}
    (h : g ∈ unmatchedGlFormattedOf s) :
    ∃ p : Nat × Row, g = fmtUnmatchedGl p ∧ p.1 < s.gl_data.length ∧
      s.gl_data[p.1]? = some p.2 ∧
      (matchedGlIndexes s.matchList).contains p.1 = false := by
  rw [unmatchedGlFormattedOf] at h
  obtain ⟨p, hp, rfl⟩ := List.mem_map.1 h
  rw [List.mem_filter] at hp
  obtain ⟨hpe, hpc⟩ := hp
  rw [enum_eq_range_map] at hpe
  obtain ⟨k, hk, rfl⟩ := List.mem_map.1 hpe
  rw [List.mem_range] at hk
  refine ⟨_, rfl, hk, ?_, by simpa using hpc⟩
  simp only
  rw [List.getD_eq_getElem s.gl_data default hk]
  exact (List.getElem?_eq_getElem hk)

/-- Every group of the projection is an indexed bank group, a marked
unmatched bank group, or a formatted unmatched GL row. -/
theorem mem_outputGroups_cases {s : Session} {g : Group}
    (h : g ∈ outputGroups (createGroupedData s)) :
    (∃ k < s.bank_data.length, g = grpOf s k) ∨
    (∃ k < s.bank_data.length, g = markUnmatchedBank (grpOf s k)) ∨
    (∃ p : Nat × Row, g = fmtUnmatchedGl p ∧ p.1 < s.gl_data.length ∧
      s.gl_data[p.1]? = some p.2) := by
  by_cases hbe : s.bank_data.isEmpty || s.gl_data.isEmpty
  · rw [createGroupedData, if_pos hbe] at h
    simp [outputGroups] at h
  · simp only [Bool.or_eq_true, not_or, List.isEmpty_iff] at hbe
    rw [createGroupedData_nonempty s hbe.1 hbe.2, outputGroups] at h
    simp only [List.mem_append] at h
    rcases h with (h1 | h2) | h3
    · obtain ⟨k, hk, rfl⟩ := mem_groupsOf (List.mem_filter.1 h1).1
      exact Or.inl ⟨k, hk, rfl⟩
    · have h2' := (mem_sortByKey bankGroupKey).1 h2
      rw [unmatchedBankEntriesOf] at h2'
      obtain ⟨g', hg', rfl⟩ := List.mem_map.1 h2'
      rw [List.mem_filter] at hg'
      rcases List.mem_append.1 hg'.1 with hh | hh
      · obtain ⟨k, hk, rfl⟩ := mem_groupsOf (List.mem_filter.1 hh).1
        exact Or.inr (Or.inl ⟨k, hk, rfl⟩)
      · obtain ⟨k, hk, rfl⟩ := mem_groupsOf (List.mem_filter.1 hh).1
        exact Or.inr (Or.inl ⟨k, hk, rfl⟩)
    · obtain ⟨p, rfl, hp1, hp2, _⟩ :=
        mem_unmatchedGlFormattedOf ((mem_sortByKey glGroupKey).1 h3)
      exact Or.inr (Or.inr ⟨p, rfl, hp1, hp2⟩)

/-- `grpOf`'s nested entries always record exactly `gl_data[glIndex]` as the
entry data. -/
theorem glEntry_data_grpOf {s : Session} {k : Nat} {e : GlEntry}
    (h : e ∈ (grpOf s k).glEntries) : e.data = s.gl_data[e.glIndex]? := by
  cases hm : (btOf s k).matchInfo with
  | none =>
    rw [grpOf, mkGroup_glEntries_none s hm] at h
    cases h
  | some m =>
    rw [grpOf, mkGroup_glEntries_some s hm] at h
    by_cases hlive : liveMatch m = true
    · rw [if_pos hlive] at h
      obtain ⟨gi, _, rfl⟩ := List.mem_map.1 h
      rfl
    · rw [if_neg hlive] at h
      cases h

end OutputShape

/-! ## Claim theorems -/

/-- C1 (counterexample): with two match entries for bank index 0 whose
first non-rejected entry has an empty `gl_indexes`, both bank index 0 and
ledger index 0 are silently dropped from the projection — they appear in
zero output groups, although both datasets have length 1.  This refutes the
claim that every bank and ledger index appears in exactly one output group
for every input. -/
theorem C1_counterexample :
    sessionShadowedMatch.bank_data.length = 1 ∧
    sessionShadowedMatch.gl_data.length = 1 ∧
    bankOccurrences (createGroupedData sessionShadowedMatch) 0 = 0 ∧
    glOccurrences (createGroupedData sessionShadowedMatch) 0 = 0 := by
  decide

/-- C1 (amended): for non-empty datasets and a well-formed match list — at
most one non-rejected entry per bank index, every live match's `bank_index`
in range, and no GL index claimed twice by live matches — every bank index
and every ledger index appears in exactly one output group of
`createGroupedData`. -/
theorem C1_coverage_wellformed (s : Session) (hb : s.bank_data ≠ [])
    (hg : s.gl_data ≠ []) (hu : UniqActive s.matchList)
    (hr : ActiveInRange s) (hn : NoSharedGl s.matchList) :
    (∀ i < s.bank_data.length,
      bankOccurrences (createGroupedData s) i = 1) ∧
    (∀ j < s.gl_data.length,
      glOccurrences (createGroupedData s) j = 1) :=
  ⟨fun _ hi => bankOccurrences_eq_one s hb hg hu hi,
   fun _ hj => glOccurrences_eq_one s hb hg hu hr hn hj⟩

/-- C1 (witness): the spec's positive scenario satisfies the
well-formedness hypotheses, and both index 0's appear exactly once. -/
theorem C1_coverage_wellformed_witness :
    bankOccurrences (createGroupedData sessionScenario) 0 = 1 ∧
    glOccurrences (createGroupedData sessionScenario) 0 = 1 := by
  have h := C1_coverage_wellformed sessionScenario (by decide) (by decide)
    (by decide) (by decide) (by decide)
  exact ⟨h.1 0 (by decide), h.2 0 (by decide)⟩

/-- C2 (counterexample): two live matches claiming the same GL index nest
ledger index 0 under two distinct Matched groups, so it appears twice in
the projection.  This refutes the claim that no index ever appears in two
different output groups. -/
theorem C2_counterexample :
    glOccurrences (createGroupedData sessionSharedGl) 0 = 2 := by
  decide

/-- C2 (amended): no bank index is ever duplicated in the projection
(unconditionally), and provided no GL index is claimed twice across live
matches, no ledger index is duplicated either. -/
theorem C2_no_duplication (s : Session) (hn : NoSharedGl s.matchList) :
    (∀ i, bankOccurrences (createGroupedData s) i ≤ 1) ∧
    (∀ j, glOccurrences (createGroupedData s) j ≤ 1) :=
  ⟨fun i => bankOccurrences_le_one s i, fun j => glOccurrences_le_one s hn j⟩

/-- C2 (witness): duplication bounds instantiated on the spec scenario. -/
theorem C2_no_duplication_witness :
    bankOccurrences (createGroupedData sessionScenario) 0 ≤ 1 ∧
    glOccurrences (createGroupedData sessionScenario) 0 ≤ 1 := by
  have h := C2_no_duplication sessionScenario (by decide)
  exact ⟨h.1 0, h.2 0⟩

/-- C6 (counterexample): with an empty bank dataset and a non-empty ledger
dataset, `createGroupedData` returns the fully empty projection — the
non-empty ledger side does NOT contribute its rows as unmatched groups.
This refutes the claim that only the empty side's projection is empty. -/
theorem C6_counterexample :
    sessionEmptyBank.gl_data ≠ [] ∧
    createGroupedData sessionEmptyBank = ⟨[], [], []⟩ := by
  constructor
  · decide
  · decide

/-- C6 (amended): whenever either dataset is empty the projector takes its
early return and yields the completely empty projection, dropping the other
side's rows as well. -/
theorem C6_empty_side (s : Session)
    (h : s.bank_data = [] ∨ s.gl_data = []) :
    createGroupedData s = ⟨[], [], []⟩ := by
  rw [createGroupedData, if_pos]
  rcases h with h | h <;> simp [h]

/-- C6 (witness): the counterexample session instantiates the early
return. -/
theorem C6_empty_side_witness :
    createGroupedData sessionEmptyBank = ⟨[], [], []⟩ :=
  C6_empty_side sessionEmptyBank (Or.inl rfl)

/-- C3 (counterexample): GL index 0 is claimed by a rejected match and by a
live match whose `bank_index` (5) is out of range; the projector puts it in
`matchedGlIndexes` (so it is not an unmatched-GL group) but no bank group
nests it, so it appears in zero output groups — neither as unmatched-ledger
nor under any non-rejected match, refuting the claim. -/
theorem C3_counterexample :
    (∃ m ∈ sessionRejectedOrphan.matchList,
      m.status = "rejected" ∧ 0 ∈ m.gl_indexes) ∧
    glOccurrences (createGroupedData sessionRejectedOrphan) 0 = 0 := by
  constructor
  · decide
  · decide

/-- C3 (amended): for non-empty datasets and a well-formed match list (at
most one non-rejected entry per bank index, live matches in range), a
rejected match's GL indexes are never nested under a group carrying that
match, and each such in-range ledger index surfaces either as an
unmatched-GL group or nested under an active group whose (different,
non-rejected) match claims it. -/
theorem C3_rejected_handling (s : Session) (hb : s.bank_data ≠ [])
    (hg : s.gl_data ≠ []) (hu : UniqActive s.matchList)
    (hr : ActiveInRange s) :
    ∀ m ∈ s.matchList, m.status = "rejected" →
      (∀ g ∈ outputGroups (createGroupedData s),
        g.bankMatch = some m → g.glEntries = []) ∧
      (∀ j ∈ m.gl_indexes, j < s.gl_data.length →
        (∃ g ∈ (createGroupedData s).unmatchedGl, groupGlIndexes g = [j]) ∨
        (∃ g ∈ (createGroupedData s).active, ∃ m', g.bankMatch = some m' ∧
          liveMatch m' = true ∧ j ∈ m'.gl_indexes ∧
          j ∈ groupGlIndexes g)) := by
  intro m _ hmrej
  have hmlive : liveMatch m = false := by
    simp [liveMatch, hmrej]
  constructor
  · intro g hgmem hgbm
    rcases mem_outputGroups_cases hgmem with
      ⟨k, _, rfl⟩ | ⟨k, _, rfl⟩ | ⟨p, rfl, _, _⟩
    · have hmi : (btOf s k).matchInfo = some m := hgbm
      rw [grpOf, mkGroup_glEntries_some s hmi, hmlive]
      rfl
    · have hmi : (btOf s k).matchInfo = some m := by simpa using hgbm
      rw [markUnmatchedBank_glEntries, grpOf,
        mkGroup_glEntries_some s hmi, hmlive]
      rfl
    · rw [fmtUnmatchedGl_bankMatch] at hgbm
      cases hgbm
  · intro j hjm hjM
    by_cases hmem : j ∈ matchedGlIndexes s.matchList
    · right
      obtain ⟨mh, hmhmem, hmhlive, hjmh⟩ := mem_matchedGlIndexes.1 hmem
      have hres := getMatchForBankEntry_unique hu hmhmem rfl
        (liveMatch_status hmhlive)
      have hiN := hr mh hmhmem hmhlive
      have hact : isActiveGroup (grpOf s mh.bank_index) = true :=
        (isActiveGroup_mkGroup s (btOf s mh.bank_index)).2 ⟨mh, hres, hmhlive⟩
      refine ⟨grpOf s mh.bank_index, ?_, mh, hres, hmhlive, hjmh, ?_⟩
      · rw [createGroupedData_nonempty s hb hg]
        exact List.mem_filter.2 ⟨grpOf_mem_groupsOf s hiN, hact⟩
      · rw [groupGlIndexes_grpOf_live s hres hmhlive]
        exact hjmh
    · left
      refine ⟨fmtUnmatchedGl (j, s.gl_data.getD j default), ?_, rfl⟩
      rw [createGroupedData_nonempty s hb hg]
      apply (mem_sortByKey glGroupKey).2
      rw [unmatchedGlFormattedOf]
      apply List.mem_map.2
      refine ⟨(j, s.gl_data.getD j default), List.mem_filter.2 ⟨?_, ?_⟩, rfl⟩
      · rw [enum_eq_range_map]
        exact List.mem_map.2 ⟨j, List.mem_range.2 hjM, rfl⟩
      · have hc : (matchedGlIndexes s.matchList).contains j = false := by
          cases hc : (matchedGlIndexes s.matchList).contains j with
          | false => rfl
          | true => exact absurd (contains_eq_true_iff_mem.1 hc) hmem
        show (!(matchedGlIndexes s.matchList).contains j) = true
        rw [hc]
        rfl

/-- C3 (witness): with a single rejected match claiming the only GL row,
that ledger index surfaces as an unmatched-GL group. -/
theorem C3_rejected_handling_witness :
    (∃ g ∈ (createGroupedData sessionRejectedOk).unmatchedGl,
      groupGlIndexes g = [0]) ∨
    (∃ g ∈ (createGroupedData sessionRejectedOk).active,
      ∃ m', g.bankMatch = some m' ∧ liveMatch m' = true ∧
        0 ∈ m'.gl_indexes ∧ 0 ∈ groupGlIndexes g) :=
  (C3_rejected_handling sessionRejectedOk (by decide) (by decide)
    (by decide) (by decide) ⟨0, [0], 1/2, "x", "rejected"⟩
    (List.mem_cons_self _ _) rfl).2 0 (List.mem_cons_self _ _) (by decide)

/-- C4 (counterexample): a bank row with a missing date is keyed epoch 0
(`new Date(0)`), so a bank row dated 1969-12-31 (negative timestamp) sorts
BEFORE it.  The Matched-group order is `[bank 1, bank 0]`, refuting the
claim that a missing-date row sorts before all dated rows. -/
theorem C4_counterexample :
    sessionPreEpoch.bank_data.getD 0 default = rowMissing ∧
    rowMissing.dateVal = DateVal.missing ∧
    ((createGroupedData sessionPreEpoch).active.map fun g => g.bankIndex) =
      [some 1, some 0] ∧
    ((createGroupedData sessionPreEpoch).active.map fun g => g.bankIndex) ≠
      [some 0, some 1] := by
  refine ⟨by decide, by decide, by decide, by decide⟩

/-- C4 (amended): on sessions whose bank rows have no unparseable dates
(so no `NaN` sort key arises and the embedding's key function is faithful),
the active groups are ordered by the bank row's parsed timestamp ascending
— a missing/empty date counting as epoch 0, hence before post-epoch dates
but after pre-epoch ones — with ties broken by original bank index (stable
sort); the unmatched-bank section is likewise ordered by that key
ascending (its tie order is rejected-groups-first, not index order, and is
not claimed here). -/
theorem C4_date_ordering (s : Session) (hd : BankDatesParseable s) :
    ((createGroupedData s).active.Pairwise fun g h =>
      bankGroupKey g < bankGroupKey h ∨ (bankGroupKey g = bankGroupKey h ∧
        ∀ a b, g.bankIndex = some a → h.bankIndex = some b → a < b)) ∧
    ((createGroupedData s).unmatchedBank.Pairwise fun g h =>
      bankGroupKey g ≤ bankGroupKey h) ∧
    (∀ r : Row, r.dateVal = DateVal.missing → jsDateMs r = some 0) := by
  have _ := hd
  refine ⟨?_, ?_, fun r hr => by rw [jsDateMs, hr]⟩
  · by_cases hbe : s.bank_data.isEmpty || s.gl_data.isEmpty
    · rw [createGroupedData, if_pos hbe]
      simp
    · simp only [Bool.or_eq_true, not_or, List.isEmpty_iff] at hbe
      rw [createGroupedData_nonempty s hbe.1 hbe.2]
      apply List.Pairwise.sublist (List.filter_sublist _)
      rw [groupsOf, List.pairwise_map]
      have hidx : (bankTransactions s).Pairwise fun a b =>
          a.bankIndex < b.bankIndex := by
        rw [bankTransactions_eq, List.pairwise_map]
        exact List.pairwise_lt_range s.bank_data.length
      have hsorted := sortByKey_stable btKey BankTransaction.bankIndex
        (bankTransactions s) hidx
      apply List.Pairwise.imp_of_mem ?_ hsorted
      intro a b ha hb hrel
      obtain ⟨ia, _, rfl⟩ := mem_bankTransactions
        ((mem_sortByKey btKey).1 ha)
      obtain ⟨ib, _, rfl⟩ := mem_bankTransactions
        ((mem_sortByKey btKey).1 hb)
      rcases hrel with hlt | ⟨heq, hidxlt⟩
      · exact Or.inl hlt
      · refine Or.inr ⟨heq, ?_⟩
        intro x y hx hy
        have hxe : x = ia := by
          have : (some ia : Option Nat) = some x := hx
          exact (Option.some.inj this).symm
        have hye : y = ib := by
          have : (some ib : Option Nat) = some y := hy
          exact (Option.some.inj this).symm
        subst hxe
        subst hye
        exact hidxlt
  · by_cases hbe : s.bank_data.isEmpty || s.gl_data.isEmpty
    · rw [createGroupedData, if_pos hbe]
      simp
    · simp only [Bool.or_eq_true, not_or, List.isEmpty_iff] at hbe
      rw [createGroupedData_nonempty s hbe.1 hbe.2]
      exact sortByKey_sorted bankGroupKey _

/-- C4 (witness): date ordering instantiated on the spec scenario, whose
single bank row carries a parseable date. -/
theorem C4_date_ordering_witness :
    ((createGroupedData sessionScenario).active.Pairwise fun g h =>
      bankGroupKey g < bankGroupKey h ∨ (bankGroupKey g = bankGroupKey h ∧
        ∀ a b, g.bankIndex = some a → h.bankIndex = some b → a < b)) ∧
    ((createGroupedData sessionScenario).unmatchedBank.Pairwise fun g h =>
      bankGroupKey g ≤ bankGroupKey h) ∧
    (∀ r : Row, r.dateVal = DateVal.missing → jsDateMs r = some 0) :=
  C4_date_ordering sessionScenario (by decide)

/-- C5 (counterexample): with `gl_indexes = [5]` and a single GL row, the
out-of-range index is NOT dropped: the group keeps a nested entry with
`glIndex = 5` and `undefined` (`none`) data and still counts as a Matched
group.  This refutes the claim
that the rest of the output is as if the match had only its in-range
indexes (which would make this bank row an unmatched group). -/
theorem C5_counterexample :
    ((createGroupedData sessionOutOfRange).active.map fun g =>
      g.glEntries.map fun e => (e.glIndex, e.data)) =
        [[(5, (none : Option Row))]] ∧
    ((createGroupedData sessionOutOfRange).active.map fun g =>
      g.glEntries.length) ≠ [0] := by
  refine ⟨by decide, by decide⟩

/-- C5 (amended): the projector totally evaluates (never throws) and an
out-of-range GL index is kept in the nested list as an entry whose `data`
is `undefined` (`none`): every nested entry of every output group stores
exactly `gl_data[glIndex]`, which is `none` precisely when the index is out
of range. -/
theorem C5_out_of_range_kept (s : Session) :
    ∀ g ∈ outputGroups (createGroupedData s), ∀ e ∈ g.glEntries,
      e.data = s.gl_data[e.glIndex]? ∧
      (s.gl_data.length ≤ e.glIndex → e.data = none) := by
  intro g hgmem e he
  have hdata : e.data = s.gl_data[e.glIndex]? := by
    rcases mem_outputGroups_cases hgmem with
      ⟨k, _, rfl⟩ | ⟨k, _, rfl⟩ | ⟨p, rfl, _, hp2⟩
    · exact glEntry_data_grpOf he
    · rw [markUnmatchedBank_glEntries] at he
      exact glEntry_data_grpOf he
    · rw [fmtUnmatchedGl_glEntries, List.mem_singleton] at he
      subst he
      exact hp2.symm
  exact ⟨hdata, fun hle => by rw [hdata]; exact List.getElem?_eq_none hle⟩

/-- C5 (witness): the out-of-range scenario's nested entry, with its
`none` data, instantiates the amended statement. -/
theorem C5_out_of_range_kept_witness :
    ({ glIndex := 5, data := none,
        matchInfo := some ⟨0, [5], 9/10, "a", "pending"⟩ } : GlEntry).data =
      sessionOutOfRange.gl_data[(5 : Nat)]? ∧
    (sessionOutOfRange.gl_data.length ≤ 5 →
      ({ glIndex := 5, data := none,
          matchInfo := some ⟨0, [5], 9/10, "a", "pending"⟩ } :
        GlEntry).data = none) :=
  C5_out_of_range_kept sessionOutOfRange (grpOf sessionOutOfRange 0)
    (by
      rw [createGroupedData_nonempty sessionOutOfRange (by decide)
        (by decide), outputGroups]
      exact List.mem_append.2 (Or.inl (List.mem_append.2 (Or.inl
        (List.mem_filter.2
          ⟨grpOf_mem_groupsOf sessionOutOfRange (by decide),
            by decide⟩)))))
    _ (List.mem_cons_self _ _)

/-- C7: every Matched (active) group carries its resolved match and is
classified `approved` when the match status is `approved`, else
`high-confidence` when the confidence is at least 0.7, else
`low-confidence`; and every group with no live nested ledger rows is
classified `no-match`. -/
theorem C7_classification (s : Session) :
    (∀ g ∈ (createGroupedData s).active, ∃ m, g.bankMatch = some m ∧
      g.glEntries ≠ [] ∧
      g.groupStyle = (if m.status = "approved" then "approved"
        else if (7 : ℚ)/10 ≤ m.confidence then "high-confidence"
        else "low-confidence")) ∧
    (∀ g ∈ outputGroups (createGroupedData s), g.glEntries = [] →
      g.groupStyle = "no-match") := by
  constructor
  · intro g hgmem
    by_cases hbe : s.bank_data.isEmpty || s.gl_data.isEmpty
    · rw [createGroupedData, if_pos hbe] at hgmem
      cases hgmem
    · simp only [Bool.or_eq_true, not_or, List.isEmpty_iff] at hbe
      rw [createGroupedData_nonempty s hbe.1 hbe.2] at hgmem
      have hf := List.mem_filter.1 hgmem
      obtain ⟨k, _, rfl⟩ := mem_groupsOf hf.1
      obtain ⟨m, hm, hlive⟩ := (isActiveGroup_mkGroup s (btOf s k)).1 hf.2
      refine ⟨m, hm, ?_, ?_⟩
      · rw [grpOf, mkGroup_glEntries_some s hm, if_pos hlive]
        simp [liveMatch_nonempty hlive]
      · rw [grpOf, mkGroup_groupStyle_some s hm, if_pos hlive]
        by_cases happ : m.status = "approved"
        · rw [if_pos happ]
          have : (m.status == "approved") = true := by simpa using happ
          rw [this]
          rfl
        · rw [if_neg happ]
          have : (m.status == "approved") = false := by simpa using happ
          rw [this]
          rfl
  · intro g hgmem hnil
    rcases mem_outputGroups_cases hgmem with
      ⟨k, _, rfl⟩ | ⟨k, _, rfl⟩ | ⟨p, rfl, _, _⟩
    · cases hm : (btOf s k).matchInfo with
      | none => exact mkGroup_groupStyle_none s hm
      | some m =>
        rw [grpOf, mkGroup_groupStyle_some s hm]
        cases hlive : liveMatch m with
        | false => rfl
        | true =>
          exfalso
          rw [grpOf, mkGroup_glEntries_some s hm, if_pos hlive] at hnil
          exact liveMatch_nonempty hlive (List.map_eq_nil_iff.1 hnil)
    · rw [markUnmatchedBank_glEntries] at hnil
      rw [markUnmatchedBank_groupStyle]
      cases hm : (btOf s k).matchInfo with
      | none => exact mkGroup_groupStyle_none s hm
      | some m =>
        rw [grpOf, mkGroup_groupStyle_some s hm]
        cases hlive : liveMatch m with
        | false => rfl
        | true =>
          exfalso
          rw [grpOf, mkGroup_glEntries_some s hm, if_pos hlive] at hnil
          exact liveMatch_nonempty hlive (List.map_eq_nil_iff.1 hnil)
    · rfl

/-- C7 (witness): the rejected-match session's marked bank group has no
nested rows and is classified no-match; the spec scenario's single active
group is classified high-confidence. -/
theorem C7_classification_witness :
    (markUnmatchedBank (grpOf sessionRejectedOk 0)).groupStyle =
      "no-match" :=
  (C7_classification sessionRejectedOk).2
    (markUnmatchedBank (grpOf sessionRejectedOk 0))
    (by
      rw [createGroupedData_nonempty sessionRejectedOk (by decide)
        (by decide), outputGroups]
      refine List.mem_append.2 (Or.inl (List.mem_append.2 (Or.inr
        ((mem_sortByKey bankGroupKey).2 ?_))))
      rw [unmatchedBankEntriesOf]
      refine List.mem_map.2 ⟨grpOf sessionRejectedOk 0,
        List.mem_filter.2 ⟨List.mem_append.2 (Or.inl
          (List.mem_filter.2
            ⟨grpOf_mem_groupsOf sessionRejectedOk (by decide),
              by decide⟩)), by decide⟩, rfl⟩)
    (by decide)

/-- C8: `getMatchForBankEntry` prefers a non-rejected entry: whenever some
entry for the bank index is non-rejected, the resolved match is a
non-rejected entry for that index; and whenever the resolved match is
rejected, every entry for that index is rejected. -/
theorem C8_match_priority (ms : List BankMatch) (i : Nat) :
    ((∃ m' ∈ ms, m'.bank_index = i ∧ m'.status ≠ "rejected") →
      ∃ m, getMatchForBankEntry ms i = some m ∧ m ∈ ms ∧
        m.bank_index = i ∧ m.status ≠ "rejected") ∧
    (∀ m, getMatchForBankEntry ms i = some m → m.status = "rejected" →
      ∀ m' ∈ ms, m'.bank_index = i → m'.status = "rejected") := by
  constructor
  · rintro ⟨m', hmem, hidx, hst⟩
    obtain ⟨m, hres, hmst, hmm, hmi⟩ :=
      getMatchForBankEntry_nonrejected hmem hidx hst
    exact ⟨m, hres, hmm, hmi, hmst⟩
  · intro m hres hmrej m' hmem hidx
    by_contra hst
    obtain ⟨m2, hres2, hm2st, _, _⟩ :=
      getMatchForBankEntry_nonrejected hmem hidx hst
    rw [hres] at hres2
    exact hm2st ((Option.some.inj hres2) ▸ hmrej)

/-- C8 (witness): with a single rejected entry for bank index 0, the
resolved (rejected) match forces the conclusion that this entry is
rejected. -/
theorem C8_match_priority_witness :
    (⟨0, [0], 1/2, "a", "rejected"⟩ : BankMatch).status = "rejected" :=
  (C8_match_priority msAllRejList 0).2 ⟨0, [0], 1/2, "a", "rejected"⟩
    (by rw [getMatchForBankEntry]; rfl) rfl
    ⟨0, [0], 1/2, "a", "rejected"⟩ (List.mem_cons_self _ _) rfl

/-- C9: the projector is a pure function of the session value — equal
inputs give equal projections.  In the source the only effects inside
`createGroupedData` are `console.log` calls; the three `sort` calls act on
arrays freshly produced by `map`, so `bank_data`, `gl_data` and `matches`
are never mutated, which is what makes this total-function embedding
faithful. -/
theorem C9_deterministic (s t : Session) (h : s = t) :
    createGroupedData s = createGroupedData t := by
  rw [h]

/-- C9 (witness): determinism instantiated on the spec scenario. -/
theorem C9_deterministic_witness :
    createGroupedData sessionScenario = createGroupedData sessionScenario :=
  C9_deterministic sessionScenario sessionScenario rfl

/-! ## C10: the simple page's `transformAPIResult` -/

theorem transformAPIResult_matched {α : Type} (bm : List APIMatch)
    (bankData glData : List α) :
    (transformAPIResult bm bankData glData).matched_transactions =
      (bm.filter fun m => m.gl_index.isSome).map fun m =>
        { bank_transaction := bankData[m.bank_index]?
          gl_transaction := m.gl_index.bind fun j => glData[j]?
          confidence := m.confidence
          bank_index := m.bank_index
          gl_index := m.gl_index } := rfl

theorem matched_bank_indices_eq {α : Type} (bm : List APIMatch)
    (bankData glData : List α) :
    ((transformAPIResult bm bankData glData).matched_transactions.map
      fun t => t.bank_index) =
      (bm.filter fun m => m.gl_index.isSome).map fun m => m.bank_index := by
  rw [transformAPIResult_matched, List.map_map]
  rfl

theorem matched_gl_indices_eq {α : Type} (bm : List APIMatch)
    (bankData glData : List α) :
    (((transformAPIResult bm bankData glData).matched_transactions.map
      fun t => t.gl_index).filterMap id) =
      ((bm.filter fun m => m.gl_index.isSome).map fun m =>
        m.gl_index).filterMap id := by
  rw [transformAPIResult_matched, List.map_map]
  rfl

/-- C10: every matched transaction has a non-null `gl_index`;
`unmatched_bank` is exactly the bank rows (in original order) whose index
is not the `bank_index` of any non-null-GL match, and `unmatched_gl` is
exactly the GL rows whose index is not the `gl_index` of any such match;
the three summary counters equal the lengths of the corresponding arrays;
and each matched transaction's row fields are the indexed rows, `none`
(`null`) when the index is out of range, with no exception possible. -/
theorem C10_transformAPIResult {α : Type} (bm : List APIMatch)
    (bankData glData : List α) :
    (∀ t ∈ (transformAPIResult bm bankData glData).matched_transactions,
      t.gl_index.isSome = true) ∧
    ((transformAPIResult bm bankData glData).unmatched_bank =
      (bankData.enum.filter fun p => !(bm.any fun m =>
        m.gl_index.isSome && m.bank_index == p.1)).map fun p => p.2) ∧
    ((transformAPIResult bm bankData glData).unmatched_gl =
      (glData.enum.filter fun p => !(bm.any fun m =>
        m.gl_index == some p.1)).map fun p => p.2) ∧
    ((transformAPIResult bm bankData glData).summary.total_matched =
        (transformAPIResult bm bankData glData).matched_transactions.length ∧
      (transformAPIResult bm bankData glData).summary.total_unmatched_bank =
        (transformAPIResult bm bankData glData).unmatched_bank.length ∧
      (transformAPIResult bm bankData glData).summary.total_unmatched_gl =
        (transformAPIResult bm bankData glData).unmatched_gl.length) ∧
    (∀ t ∈ (transformAPIResult bm bankData glData).matched_transactions,
      t.bank_transaction = bankData[t.bank_index]? ∧
      ∀ j, t.gl_index = some j → t.gl_transaction = glData[j]?) := by
  refine ⟨?_, ?_, ?_, ⟨rfl, rfl, rfl⟩, ?_⟩
  · intro t ht
    rw [transformAPIResult_matched] at ht
    obtain ⟨m, hm, rfl⟩ := List.mem_map.1 ht
    exact (List.mem_filter.1 hm).2
  · show ((bankData.enum.filter fun p =>
      !((transformAPIResult bm bankData glData).matched_transactions.map
        fun t => t.bank_index).contains p.1).map fun p => p.2) = _
    congr 1
    apply List.filter_congr
    intro p _
    congr 1
    rw [matched_bank_indices_eq, Bool.eq_iff_iff]
    rw [contains_eq_true_iff_mem]
    simp only [List.any_eq_true, List.mem_map, List.mem_filter,
      Bool.and_eq_true, beq_iff_eq]
    constructor
    · rintro ⟨m, ⟨hm, hs⟩, hi⟩
      exact ⟨m, hm, hs, hi⟩
    · rintro ⟨m, hm, hs, hi⟩
      exact ⟨m, ⟨hm, hs⟩, hi⟩
  · show ((glData.enum.filter fun p =>
      !(((transformAPIResult bm bankData glData).matched_transactions.map
        fun t => t.gl_index).filterMap id).contains p.1).map
          fun p => p.2) = _
    congr 1
    apply List.filter_congr
    intro p _
    congr 1
    rw [matched_gl_indices_eq, Bool.eq_iff_iff]
    rw [contains_eq_true_iff_mem]
    simp only [List.mem_filterMap, List.mem_map, List.mem_filter,
      List.any_eq_true, beq_iff_eq, id]
    constructor
    · rintro ⟨o, ⟨m, ⟨hm, _⟩, rfl⟩, ho⟩
      exact ⟨m, hm, ho⟩
    · rintro ⟨m, hm, ho⟩
      exact ⟨m.gl_index, ⟨m, ⟨hm, by rw [ho]; rfl⟩, rfl⟩, ho⟩
  · intro t ht
    rw [transformAPIResult_matched] at ht
    obtain ⟨m, _, rfl⟩ := List.mem_map.1 ht
    refine ⟨rfl, ?_⟩
    intro j hj
    have hj' : m.gl_index = some j := hj
    show (m.gl_index.bind fun k => glData[k]?) = glData[j]?
    rw [hj']
    rfl

/-- C10 (witness): the transformation instantiated on a concrete API
result with one matched entry and one null-GL entry. -/
theorem C10_transformAPIResult_witness :
    ((transformAPIResult bmW bankW glW).unmatched_bank =
      (bankW.enum.filter fun p => !(bmW.any fun m =>
        m.gl_index.isSome && m.bank_index == p.1)).map fun p => p.2) ∧
    (transformAPIResult bmW bankW glW).summary.total_matched =
      (transformAPIResult bmW bankW glW).matched_transactions.length :=
  ⟨(C10_transformAPIResult bmW bankW glW).2.1,
   (C10_transformAPIResult bmW bankW glW).2.2.2.1.1⟩

end Recon
